import Mathlib

/-!
# Verification of the RAG answer pipeline (rag_pipeline.py / create_index.py)

A shallow embedding of the retrieval-augmented answer pipeline of this
repository.  Python strings are modelled as `List Char`; Python regular
expression searches used by the source are hand-compiled into deterministic
scanners over character lists (each pattern in the source is simple enough
that greedy matching never needs to backtrack, which the comments at each
scanner justify).  Python's `\s`, `\d`, `\w` character classes and
`str.lower`/`str.strip` are modelled on their ASCII fragments; all concrete
inputs used in the development are ASCII (apart from German umlauts in
string constants, which none of the modelled character classes accept).

Modelled functions (from `src/rag_pipeline.py` unless noted):
* `_fix_hallucinated_citation`  → `fixHallucinatedCitation`
* `_smart_document_selection`   → `smartDocumentSelection`
* `_extract_quote_with_error_handling` → `extractQuote`
* `_load_retriever` retry loop  → `loadRetriever`
* `get_response`                → `getResponse` (the external LLM/retrieval
  call is an oracle argument; its outcome is a `RagOutcome`)
* `extract_paragraph_details`, metadata enrichment (from
  `src/create_index.py`) → `extractParagraphDetails`, `enrichMetadata`
-/

/-- Python strings are modelled as lists of characters. -/
abbrev Str := List Char

/-- ASCII fragment of Python's `\s` class (space, tab, newline, carriage
return, vertical tab, form feed). -/
def pyWs (c : Char) : Bool :=
  c = ' ' || c = '\t' || c = '\n' || c = '\r' || c = '\x0b' || c = '\x0c'

/-- Python's `\d` on ASCII: the decimal digits. -/
def isDigitChar (c : Char) : Bool := '0' ≤ c && c ≤ '9'

/-- The class `[a-z]` used for the optional trailing letter of a section
number. -/
def isLowerChar (c : Char) : Bool := 'a' ≤ c && c ≤ 'z'

/-- ASCII fragment of Python's `\w` class (letters, digits, underscore). -/
def isWordChar (c : Char) : Bool :=
  isDigitChar c || isLowerChar c || ('A' ≤ c && c ≤ 'Z') || c = '_'

/-- ASCII fragment of Python's `str.lower`. -/
def pyLowerChar (c : Char) : Char :=
  if 'A' ≤ c && c ≤ 'Z' then Char.ofNat (c.toNat + 32) else c

/-- `str.lower` on a whole string (ASCII fragment). -/
def pyLower (s : Str) : Str := s.map pyLowerChar

/-- Python's `str.strip()` (ASCII-whitespace fragment). -/
def pyStrip (s : Str) : Str :=
  ((s.dropWhile pyWs).reverse.dropWhile pyWs).reverse

/-- Python's substring test `needle in hay`. -/
def containsSub (needle : Str) : Str → Bool
  | [] => needle.isPrefixOf []
  | c :: t => needle.isPrefixOf (c :: t) || containsSub needle t

/-- Auxiliary scanner of `str.replace(needle, repl, 1)` for a non-empty
needle: splice `repl` in place of the first occurrence of `needle`. -/
def replaceFirstAux (needle repl : Str) : Str → Str
  | [] => []
  | c :: t =>
    if needle.isPrefixOf (c :: t) then repl ++ (c :: t).drop needle.length
    else c :: replaceFirstAux needle repl t

/-- Python's `str.replace(needle, repl, 1)` (an empty needle is prepended,
as in Python). -/
def replaceFirst (needle repl s : Str) : Str :=
  if needle = [] then repl ++ s else replaceFirstAux needle repl s

/-- Python's `int` on a captured `\d+` group (a non-empty digit string). -/
def natOfDigits (s : Str) : Nat :=
  s.foldl (fun n c => 10 * n + (c.toNat - '0'.toNat)) 0

/-! ## Index loading with retry (`_load_retriever`, `RAGPipeline.__init__`)

The loop `for attempt in range(3)` either returns the loaded retriever, or
sleeps `2 ** attempt` seconds and retries while `attempt < max_retries - 1`,
or gives up returning `None`.  The outcome of each individual load attempt
is an oracle `tryLoad : Nat → Option ρ`; the model returns the final result
together with the list of backoff waits actually slept, in order. -/

def loadLoop {ρ : Type} (tryLoad : Nat → Option ρ) : List Nat → Option ρ × List Nat
  | [] => (none, [])
  | a :: rest =>
    match tryLoad a with
    | some r => (some r, [])
    | none =>
      if rest = [] then (none, [])
      else
        let p := loadLoop tryLoad rest
        (p.1, 2 ^ a :: p.2)

/-- `_load_retriever`: missing index path short-circuits to `None` with no
attempts; otherwise up to `max_retries = 3` attempts (indices 0, 1, 2). -/
def loadRetriever {ρ : Type} (pathExists : Bool) (tryLoad : Nat → Option ρ) :
    Option ρ × List Nat :=
  if pathExists then loadLoop tryLoad [0, 1, 2] else (none, [])

/-- `RAGPipeline.__init__` step 3: the pipeline serves requests only when
`_load_retriever` returned a retriever; otherwise `st.stop()` halts it. -/
def pipelineServes {ρ : Type} (loadResult : Option ρ) : Bool :=
  loadResult.isSome

/-! ## Citation parsing (`_fix_hallucinated_citation`, `_smart_document_selection`)

The source uses four regular expressions on answers, references and chunk
texts.  Each is compiled here to a deterministic scanner; determinism is
faithful because in every pattern the greedy pieces are followed only by
optional groups (so a successful prefix never has to backtrack) and the
character classes of adjacent pieces are disjoint (`\s`, `\d`, `[a-z]`,
literals). -/

/-- The optional `[a-z]?` after the digits of a section number: greedily
take one lowercase letter if present. -/
def takeLetter : Str → Str × Str
  | [] => ([], [])
  | c :: t => if isLowerChar c then ([c], t) else ([], c :: t)

/-- Match `§(\d+[a-z]?)` (the pattern applied to `correct_legal_ref`) at the
head of the string, returning group 1. -/
def matchSecAt : Str → Option Str
  | [] => none
  | c :: r =>
    if c = '§' then
      let d := r.takeWhile isDigitChar
      let r1 := r.dropWhile isDigitChar
      if d = [] then none else some (d ++ (takeLetter r1).1)
    else none

/-- `re.search(r'§(\d+[a-z]?)', s)` returning group 1 of the leftmost
match: step 1 of `_fix_hallucinated_citation` on the metadata reference. -/
def findSectionRef : Str → Option Str
  | [] => none
  | c :: r =>
    match matchSecAt (c :: r) with
    | some g => some g
    | none => findSectionRef r

/-- The first parsed citation of an answer: group 0 (the full matched
text), group 1 (section number) and group 2 (optional Absatz number) of
`§\s*(\d+[a-z]?)(?:\s+Abs\.\s*(\d+))?(?:\s+Satz\s*\d+)?(?:\s+Nr\.\s*\d+)?(?:\s+EStG)?`. -/
structure CitMatch where
  g0 : Str
  para : Str
  absNum : Option Str
deriving DecidableEq

def absLit : Str := ['A', 'b', 's', '.']
def satzLit : Str := ['S', 'a', 't', 'z']
def nrLit : Str := ['N', 'r', '.']
def estgLit : Str := ['E', 'S', 't', 'G']

/-- The optional group `(?:\s+Abs\.\s*(\d+))?`: on success, the consumed
text, the captured digits and the rest. -/
def tryAbs (s : Str) : Option (Str × Str × Str) :=
  let w1 := s.takeWhile pyWs
  let r1 := s.dropWhile pyWs
  if w1 = [] then none
  else if absLit.isPrefixOf r1 then
    let r2 := r1.drop absLit.length
    let w2 := r2.takeWhile pyWs
    let r3 := r2.dropWhile pyWs
    let d := r3.takeWhile isDigitChar
    let r4 := r3.dropWhile isDigitChar
    if d = [] then none else some (w1 ++ absLit ++ w2 ++ d, d, r4)
  else none

/-- The optional group `(?:\s+Satz\s*\d+)?` (no capture). -/
def trySatz (s : Str) : Option (Str × Str) :=
  let w1 := s.takeWhile pyWs
  let r1 := s.dropWhile pyWs
  if w1 = [] then none
  else if satzLit.isPrefixOf r1 then
    let r2 := r1.drop satzLit.length
    let w2 := r2.takeWhile pyWs
    let r3 := r2.dropWhile pyWs
    let d := r3.takeWhile isDigitChar
    let r4 := r3.dropWhile isDigitChar
    if d = [] then none else some (w1 ++ satzLit ++ w2 ++ d, r4)
  else none

/-- The optional group `(?:\s+Nr\.\s*\d+)?` (no capture). -/
def tryNr (s : Str) : Option (Str × Str) :=
  let w1 := s.takeWhile pyWs
  let r1 := s.dropWhile pyWs
  if w1 = [] then none
  else if nrLit.isPrefixOf r1 then
    let r2 := r1.drop nrLit.length
    let w2 := r2.takeWhile pyWs
    let r3 := r2.dropWhile pyWs
    let d := r3.takeWhile isDigitChar
    let r4 := r3.dropWhile isDigitChar
    if d = [] then none else some (w1 ++ nrLit ++ w2 ++ d, r4)
  else none

/-- The optional group `(?:\s+EStG)?`. -/
def tryEStG (s : Str) : Option (Str × Str) :=
  let w1 := s.takeWhile pyWs
  let r1 := s.dropWhile pyWs
  if w1 = [] then none
  else if estgLit.isPrefixOf r1 then some (w1 ++ estgLit, r1.drop estgLit.length)
  else none

/-- Extend group 0 by an optional non-capturing group, if it matches. -/
def extendOpt (f : Str → Option (Str × Str)) (acc : Str × Str) : Str × Str :=
  match f acc.2 with
  | some (con, rest) => (acc.1 ++ con, rest)
  | none => acc

/-- Match the full citation pattern at the head of the string, returning
the match and the rest of the string after group 0. -/
def matchCitationAt : Str → Option (CitMatch × Str)
  | [] => none
  | c :: r =>
    if c = '§' then
      let w := r.takeWhile pyWs
      let r1 := r.dropWhile pyWs
      let d := r1.takeWhile isDigitChar
      let r2 := r1.dropWhile isDigitChar
      if d = [] then none
      else
        let lt := (takeLetter r2).1
        let r3 := (takeLetter r2).2
        let para := d ++ lt
        let afterAbs :=
          match tryAbs r3 with
          | some (con, dcap, rest) => ('§' :: (w ++ para) ++ con, some dcap, rest)
          | none => ('§' :: (w ++ para), none, r3)
        let p1 := extendOpt trySatz (afterAbs.1, afterAbs.2.2)
        let p2 := extendOpt tryNr p1
        let p3 := extendOpt tryEStG p2
        some ({ g0 := p3.1, para := para, absNum := afterAbs.2.1 }, p3.2)
    else none

/-- The citation pattern matches at the head of a string exactly when a `§`
is followed, after whitespace, by a digit: the success condition of
`matchCitationAt`, isolated for position-transfer arguments. -/
def matchHead : Str → Bool
  | [] => false
  | c :: r =>
    if c = '§' then
      match r.dropWhile pyWs with
      | c1 :: _ => isDigitChar c1
      | [] => false
    else false

/-- `re.search(citation_pattern, answer_text)`: the leftmost citation
match, returned as `(text before the match, match, text after group 0)`. -/
def searchCitation : Str → Option (Str × CitMatch × Str)
  | [] => none
  | c :: r =>
    match matchCitationAt (c :: r) with
    | some (m, rest) => some ([], m, rest)
    | none =>
      match searchCitation r with
      | some (pre, m, rest) => some (c :: pre, m, rest)
      | none => none

/-- `re.search(rf'\(({cited_para})\)', source_document_text)`: the cited
number appears parenthesized somewhere in the chunk text. -/
def subMarkerInSource (n src : Str) : Bool :=
  containsSub ('(' :: n ++ [')']) src

/-! The Absatz-1 block: `re.search(r'\(1\)\s+(.*?)(?=\n\(2\)|\Z)', src, DOTALL)`.
The greedy `\s+` never backtracks because the lazy tail `(.*?)(?=\n\(2\)|\Z)`
always succeeds (at worst at the end of the string); the lazy group stops at
the first position where `\n(2)` follows, or at the end. -/

def open1Lit : Str := ['(', '1', ')']
def nl2Lit : Str := ['\n', '(', '2', ')']

/-- Group 1 of the Absatz-1 pattern when it matches at the head: everything
after `(1)` plus at least one whitespace, up to the first `\n(2)` or the
end. -/
def upToNl2 : Str → Str
  | [] => []
  | c :: r => if nl2Lit.isPrefixOf (c :: r) then [] else c :: upToNl2 r

/-- Match the Absatz-1 pattern at the head of the string. -/
def abs1At (s : Str) : Option Str :=
  if open1Lit.isPrefixOf s then
    let r := s.drop open1Lit.length
    let w := r.takeWhile pyWs
    let r1 := r.dropWhile pyWs
    if w = [] then none else some (upToNl2 r1)
  else none

/-- The leftmost match of the Absatz-1 pattern: the text of subsection (1)
of the chunk. -/
def absatz1Block : Str → Option Str
  | [] => none
  | c :: r =>
    match abs1At (c :: r) with
    | some b => some b
    | none => absatz1Block r

/-- `re.search(rf'^\s*{cited_abs}\.\s+', block, MULTILINE)` at one line
start: skip whitespace (which may span further newlines), then the cited
number, a dot, and at least one whitespace. -/
def nummerAt (n s : Str) : Bool :=
  let s1 := s.dropWhile pyWs
  if (n ++ ['.']).isPrefixOf s1 then
    match s1.drop (n.length + 1) with
    | c :: _ => pyWs c
    | [] => false
  else false

/-- The suffixes of a string that start just after a newline: the
`MULTILINE` anchors of `^` other than the start of the string. -/
def tailsNL : Str → List Str
  | [] => []
  | c :: r => if c = '\n' then r :: tailsNL r else tailsNL r

/-- The multiline search for the numbered-list-item pattern inside a
block. -/
def nummerMatch (n block : Str) : Bool :=
  nummerAt n block || (tailsNL block).any (nummerAt n)

/-- The cited Absatz number appears as a numbered list item at a line start
inside subsection (1) of the source text (cases guarded by
`absatz_1_match` in the source). -/
def nummerHit (n src : Str) : Bool :=
  match absatz1Block src with
  | some b => nummerMatch n b
  | none => false

/-- The replacement text of the Absatz/Paragraph-confusion rewrite
(`f'§{correct_para} Abs. {cited_para} EStG'`). -/
def fixTarget1 (cp para : Str) : Str :=
  '§' :: cp ++ [' ', 'A', 'b', 's', '.', ' '] ++ para ++ [' ', 'E', 'S', 't', 'G']

/-- The replacement text of the Nummer-as-Absatz rewrite
(`f'§{correct_para} Abs. 1 Nr. {cited_abs} EStG'`). -/
def fixTarget2 (cp a : Str) : Str :=
  '§' :: cp ++ [' ', 'A', 'b', 's', '.', ' ', '1', ' ', 'N', 'r', '.', ' '] ++ a ++
    [' ', 'E', 'S', 't', 'G']

/-- `_fix_hallucinated_citation(answer_text, correct_legal_ref,
source_document_text)`. -/
def fixHallucinatedCitation (answer ref src : Str) : Str :=
  match findSectionRef ref with
  | none => answer
  | some cp =>
    match searchCitation answer with
    | none => answer
    | some (_, m, _) =>
      if m.para ≠ cp then
        if subMarkerInSource m.para src then
          replaceFirst m.g0 (fixTarget1 cp m.para) answer
        else answer
      else
        match m.absNum with
        | some a =>
          if 5 ≤ natOfDigits a then
            match absatz1Block src with
            | some b =>
              if nummerMatch a b then replaceFirst m.g0 (fixTarget2 cp a) answer
              else answer
            | none => answer
          else answer
        | none => answer

/-! ## Document selection (`_smart_document_selection`) -/

/-- A retrieved LangChain document: its text and the two metadata fields the
pipeline reads (`metadata.get` returns `None`-like defaults, modelled by
`Option`). -/
structure Doc where
  pageContent : Str
  legalReference : Option Str
  legalReferenceFull : Option Str
deriving DecidableEq

/-- Match `§\s*(\d+[a-z]?)` (the `re.findall` pattern on answers) at the
head of the string, returning group 1 and the rest after the match. -/
def matchSecNumAt : Str → Option (Str × Str)
  | [] => none
  | c :: r =>
    if c = '§' then
      let r1 := r.dropWhile pyWs
      let d := r1.takeWhile isDigitChar
      let r2 := r1.dropWhile isDigitChar
      if d = [] then none
      else some (d ++ (takeLetter r2).1, (takeLetter r2).2)
    else none

/-- `re.findall(r'§\s*(\d+[a-z]?)', answer)`: all captured section numbers
in order.  Scanning one character at a time is equivalent to resuming after
each match's end, because a match consumes `§` followed only by whitespace,
digits and one lowercase letter — no further `§` on which an overlapping
match could start. -/
def extractNums : Str → List Str
  | [] => []
  | c :: r =>
    match matchSecNumAt (c :: r) with
    | some (n, _) => n :: extractNums r
    | none => extractNums r

/-- `doc.metadata.get('legal_reference', '')`. -/
def docLegalRef (d : Doc) : Str := d.legalReference.getD []

/-- Maximal runs of word characters of a string, via an accumulator for the
run currently being read (`re.findall(r'\b\w{5,}\b', s)` keeps exactly the
maximal runs of length ≥ 5). -/
def wordRunsAux : Str → Str → List Str
  | cur, [] => if cur = [] then [] else [cur.reverse]
  | cur, c :: r =>
    if isWordChar c then wordRunsAux (c :: cur) r
    else if cur = [] then wordRunsAux [] r
    else cur.reverse :: wordRunsAux [] r

/-- `set(re.findall(r'\b\w{5,}\b', s.lower()))`, as a duplicate-free
list. -/
def keywords (s : Str) : List Str :=
  ((wordRunsAux [] (pyLower s)).filter (fun w => 5 ≤ w.length)).dedup

/-- The lexical-overlap acceptance test of `_smart_document_selection`:
`overlap >= 3 or overlap_ratio >= 0.2` where `overlap_ratio` is
`overlap / len(answer_keywords)` (and `0` for no keywords).  The ratio test
is modelled exactly over the rationals (`5 * overlap ≥ |keywords|`); the
source compares IEEE doubles, which agrees with the rational comparison for
every list of fewer than about `10^15` keywords. -/
def overlapCriterion (answer : Str) (d : Doc) : Bool :=
  let ak := keywords answer
  let dk := keywords d.pageContent
  let ov := (ak.filter (fun w => w ∈ dk)).length
  3 ≤ ov || (ak ≠ [] && ak.length ≤ 5 * ov)

/-- The body of the inner loop of `_smart_document_selection` for one
extracted number and one candidate: `number in legal_ref` (Python
substring containment) selects, otherwise a parenthesized occurrence of the
number in the candidate text together with sufficient keyword overlap
selects. -/
def selMatch (answer n : Str) (d : Doc) : Bool :=
  containsSub n (docLegalRef d) ||
    (subMarkerInSource n d.pageContent && overlapCriterion answer d)

/-- The inner loop (`for doc in retrieved_docs`). -/
def findDocFor (answer n : Str) : List Doc → Option Doc
  | [] => none
  | d :: ds => if selMatch answer n d then some d else findDocFor answer n ds

/-- The outer loop (`for number in all_numbers_in_answer`). -/
def findPair (answer : Str) : List Str → List Doc → Option Doc
  | [], _ => none
  | n :: ns, docs =>
    match findDocFor answer n docs with
    | some d => some d
    | none => findPair answer ns docs

/-- `_smart_document_selection(answer, retrieved_docs)` (`none` only on an
empty candidate list, on which the source would raise `IndexError`). -/
def smartDocumentSelection (answer : Str) (docs : List Doc) : Option Doc :=
  if extractNums answer = [] then docs.head?
  else
    match findPair answer (extractNums answer) docs with
    | some d => some d
    | none => docs.head?

/-- The selection algorithm as the amended claim C3 states it: the first
pair in the number-major, rank-minor enumeration of (extracted number,
candidate) pairs whose number occurs as a substring of the candidate's
legal reference or passes the parenthesized-subsection/keyword-overlap
test; the top-ranked candidate when there is no number or no hit. -/
def selectionSpecC3 (answer : Str) (docs : List Doc) : Option Doc :=
  let nums := extractNums answer
  if nums = [] then docs.head?
  else
    match (nums.flatMap (fun n => docs.map (fun d => (n, d)))).find?
        (fun p => selMatch answer p.1 p.2) with
    | some p => some p.2
    | none => docs.head?

/-! ## Quote extraction (`_extract_quote_with_error_handling`) -/

/-- The failure-indicating phrases of the tier-1 validity check. -/
def failureKeywords : List Str :=
  ["KEINE_EXTRAKTION".toList, "kein direktes Zitat".toList,
   "nicht gefunden".toList, "Es wurde kein".toList]

/-- `content.FALLBACK_QUOTES` (from `src/content.py`). -/
def fallbackQuotes : List (Int × Str) :=
  [(1, "Die Anschaffungs- oder Herstellungskosten [...] von abnutzbaren beweglichen Wirtschaftsgütern des Anlagevermögens, die einer selbständigen Nutzung fähig sind, können im Wirtschaftsjahr der Anschaffung [...] in voller Höhe als Betriebsausgaben abgezogen werden, wenn die Anschaffungs- oder Herstellungskosten [...] für das einzelne Wirtschaftsgut 800 Euro nicht übersteigen".toList),
   (2, "Für die Inanspruchnahme von Handwerkerleistungen für Renovierungs-, Erhaltungs- und Modernisierungsmaßnahmen ermäßigt sich die tarifliche Einkommensteuer, [...] um 20 Prozent der Aufwendungen des Steuerpflichtigen, höchstens jedoch um 1200 Euro.".toList),
   (3, "Bei der Ermittlung der Einkünfte aus Kapitalvermögen ist als Werbungskosten ein Betrag von 1000 Euro abzuziehen (Sparer-Pauschbetrag);".toList),
   (4, "Als Unterkunftskosten für eine doppelte Haushaltsführung können im Inland die tatsächlichen Aufwendungen für die Nutzung der Unterkunft angesetzt werden, höchstens 1 000 Euro im Monat".toList)]

/-- The tier-3 generic message. -/
def genericQuoteMsg : Str :=
  "Es passt kein Zitat zu Ihrer Anfrage. Bitte versuchen Sie es mit spezifischeren Begriffen erneut.".toList

/-- The tier-2/tier-3 fallback: `if task_number and task_number in
FALLBACK_QUOTES` (note Python truthiness: a task number of `0` or `None`
falls through to the generic message). -/
def quoteFallback (taskNumber : Option Int) : Str :=
  match taskNumber with
  | none => genericQuoteMsg
  | some n =>
    if n = 0 then genericQuoteMsg
    else
      match fallbackQuotes.lookup n with
      | some q => q
      | none => genericQuoteMsg

/-- The tier-1 validity check: at least 50 characters and no
failure-indicating phrase (case-insensitive containment). -/
def tier1Valid (q : Str) : Bool :=
  50 ≤ q.length &&
    !(failureKeywords.any (fun kw => containsSub (pyLower kw) (pyLower q)))

/-- `_extract_quote_with_error_handling`: the tier-1 model call is an
oracle argument — `Except.ok raw` is the content returned by the LLM,
`Except.error` any raised exception (caught by the `except` branch). -/
def extractQuote (tier1 : Except Unit Str) (taskNumber : Option Int) : Str :=
  match tier1 with
  | .ok raw =>
    let q := pyStrip raw
    if tier1Valid q then q else quoteFallback taskNumber
  | .error _ => quoteFallback taskNumber

/-! ## History contextualization (`get_response`, step 1) -/

structure Turn where
  query : Str
  answer : Str
deriving DecidableEq

/-- The refusal-phrase keyword list of the history filter. -/
def noAnswerPhrases : List Str :=
  ["keine informationen".toList, "enthalten keine".toList,
   "bitte stellen sie".toList]

/-- A turn whose answer contains one of the refusal phrases
(case-insensitively). -/
def isRefusalTurn (t : Turn) : Bool :=
  noAnswerPhrases.any (fun p => containsSub p (pyLower t.answer))

/-- `chat_history[-4:]`. -/
def lastFour (l : List Turn) : List Turn := l.drop (l.length - 4)

/-- `useful_history`: the last four turns with refusal turns filtered
out. -/
def usefulHistory (hist : List Turn) : List Turn :=
  (lastFour hist).filter (fun t => !isRefusalTurn t)

/-- One line pair of `history_text`. -/
def turnText (t : Turn) : Str :=
  "Vorherige Frage: ".toList ++ t.query ++ "\nVorherige Antwort: ".toList ++ t.answer

/-- `history_text = "\n".join(...)`. -/
def historyText (ts : List Turn) : Str :=
  List.intercalate ['\n'] (ts.map turnText)

/-- The pieces of the contextualization f-string (including its literal
16-space indentation). -/
def ctxHeader : Str :=
  "Bisheriger Gesprächskontext für dieses Steuerszenario:\n                ".toList

def ctxMid : Str := "\n\n                Aktuelle Frage: ".toList

def ctxInstr : Str :=
  "\n\n                Anweisungen: Falls die aktuelle Frage sich auf vorherige Antworten bezieht (\"das\", \"dieser Betrag\", \"die Regelung\", etc.), nutze den obigen Gesprächsverlauf, um die Frage zu verstehen.".toList

/-- Step 1 of `get_response`: the query actually sent into the RAG chain. -/
def contextualizeQuery (query : Str) (hist : List Turn) : Str :=
  if hist = [] then query
  else if usefulHistory hist = [] then query
  else ctxHeader ++ historyText (usefulHistory hist) ++ ctxMid ++ query ++ ctxInstr

/-! ## `get_response` (steps 3–11) -/

/-- Outcome of the guarded `rag_chain` invocation: a normal result, the
45-second `FutureTimeoutError`, or any other exception (identified, as in
the source, by its type name). -/
inductive RagOutcome
  | ok (answer : Str) (docs : List Doc)
  | timedOut
  | failed (errName : String)

/-- A JSON-like value of the response dictionaries. -/
inductive RVal
  | s (v : Str)
  | b (v : Bool)
  | docList (v : List Doc)
  | null
deriving DecidableEq

/-- A response dictionary: an association list over its keys, in insertion
order. -/
abbrev Resp := List (String × RVal)

/-- Reading a key of a response (`None` models a missing key). -/
def respGet (r : Resp) (k : String) : Option RVal := r.lookup k

def timeoutMsg : Str :=
  "Die Verarbeitung hat zu lange gedauert. Bitte versuchen Sie eine kürzere Frage.".toList

def busyMsg : Str :=
  "Die KI ist momentan überlastet. Bitte versuchen Sie es in ein paar Sekunden erneut.".toList

def techMsg : Str :=
  "Ein technischer Fehler ist aufgetreten. Bitte formulieren Sie Ihre Frage anders.".toList

/-- The substring probed for in the generated answer (step 5; without the
final period). -/
def refusalProbe : Str := "Bitte stellen Sie erneut die Frage".toList

/-- The fixed refusal sentence of a no-answer response. -/
def refusalAnswer : Str := "Bitte stellen Sie erneut die Frage.".toList

def unknownSourceRef : Str := "Unbekannte Quelle".toList

/-- The exact type names classified as recoverable in the `except` branch
of step 3 (`error_type in ['RateLimitError', 'APIConnectionError',
'Timeout']`). -/
def recoverableErrorNames : List String :=
  ["RateLimitError", "APIConnectionError", "Timeout"]

/-- `_create_error_response(message, recoverable)`. -/
def createErrorResponse (message : Str) (recoverable : Bool) : Resp :=
  [("answer", .s message), ("context", .docList []), ("quote", .null),
   ("legal_reference", .null), ("no_answer", .b true), ("error", .b true),
   ("recoverable", .b recoverable)]

/-- The no-answer dictionary returned by steps 5 and 6 (both sites build
this same literal). -/
def noAnswerResponse : Resp :=
  [("answer", .s refusalAnswer), ("context", .docList []), ("quote", .null),
   ("legal_reference", .null), ("no_answer", .b true)]

/-- The step-11 success dictionary. -/
def successResponse (answer : Str) (top : Doc) (quote : Option Str)
    (legalRef legalRefFull : Str) : Resp :=
  [("answer", .s answer), ("context", .docList [top]),
   ("quote", match quote with | some q => .s q | none => .null),
   ("legal_reference", .s legalRef), ("legal_reference_full", .s legalRefFull),
   ("no_answer", .b false), ("error", .b false)]

/-- Steps 3–11 of `get_response`, given the outcome of the guarded
retrieve-and-generate call. -/
def processRagOutcome (group : Option String) (tier1 : Except Unit Str)
    (taskNumber : Option Int) : RagOutcome → Resp
  | .timedOut => createErrorResponse timeoutMsg true
  | .failed errName =>
    let recoverable := recoverableErrorNames.contains errName
    createErrorResponse (if recoverable then busyMsg else techMsg) recoverable
  | .ok answer docs =>
    if containsSub refusalProbe answer then noAnswerResponse
    else
      match docs with
      | [] => noAnswerResponse
      | d :: ds =>
        let top := (smartDocumentSelection answer (d :: ds)).getD d
        let legalRef := top.legalReference.getD unknownSourceRef
        let legalRefFull := top.legalReferenceFull.getD legalRef
        let answer2 := fixHallucinatedCitation answer legalRef top.pageContent
        let quote :=
          if group = some "Augmented" then some (extractQuote tier1 taskNumber)
          else none
        successResponse answer2 top quote legalRef legalRefFull

/-- `get_response(query, group, chat_history)`: the external chain is the
oracle `ragCall`, invoked on the contextualized query. -/
def getResponse (ragCall : Str → RagOutcome) (group : Option String)
    (tier1 : Except Unit Str) (taskNumber : Option Int)
    (query : Str) (hist : List Turn) : Resp :=
  processRagOutcome group tier1 taskNumber (ragCall (contextualizeQuery query hist))

/-! ## Indexer metadata enrichment (`create_index.py`) -/

/-- `extract_paragraph_details(text_content)`:
`re.search(r'^\((\d+[a-z]?)\)', text_content.strip())`, anchored at the
start since `^` is not in `MULTILINE` mode; on a match, `"Abs. {n}"`. -/
def extractParagraphDetails (textContent : Str) : Option Str :=
  match pyStrip textContent with
  | [] => none
  | c :: r =>
    if c = '(' then
      let d := r.takeWhile isDigitChar
      let r1 := r.dropWhile isDigitChar
      if d = [] then none
      else
        let lt := (takeLetter r1).1
        match (takeLetter r1).2 with
        | [] => none
        | c2 :: _ => if c2 = ')' then some ("Abs. ".toList ++ d ++ lt) else none
    else none

/-- The metadata fields of one loaded document relevant to claim C8. -/
structure ChunkMeta where
  legalReference : Str
  paragraphDetail : Option Str
  legalReferenceFull : Option Str
deriving DecidableEq

/-- The metadata enrichment of `load_and_enrich_documents` for one document
(whole-file text), given its filename-derived legal reference. -/
def enrichMetadata (legalRef docText : Str) : ChunkMeta :=
  match extractParagraphDetails docText with
  | some ad =>
    { legalReference := legalRef, paragraphDetail := some ad,
      legalReferenceFull := some (legalRef ++ ' ' :: ad) }
  | none =>
    { legalReference := legalRef, paragraphDetail := none,
      legalReferenceFull := none }

/-- A chunk of the persisted index: its text and its metadata. -/
structure Chunk where
  text : Str
  meta : ChunkMeta
deriving DecidableEq

/-- Modelled from the spec: the text splitter used by `chunk_documents`
(`RecursiveCharacterTextSplitter`, external to `src/`) splits each
document's text into contiguous chunks and, per the indexer's documented
contract, preserves metadata from parent documents — every chunk carries
its parent document's metadata unchanged.  The splitter itself is
abstracted by the list of chunk texts it produces. -/
def chunkDocument (meta : ChunkMeta) (pieces : List Str) : List Chunk :=
  pieces.map (fun t => { text := t, meta := meta })

/-- A well-formed splitter output piece: non-empty and a contiguous slice
of the parent text. -/
def isSliceOf (piece text : Str) : Bool := piece ≠ [] && containsSub piece text

/-- A well-formed splitter output for a document text. -/
def isSplitOf (pieces : List Str) (text : Str) : Bool :=
  pieces ≠ [] && pieces.all (fun p => isSliceOf p text)

/-! ## Proof-support definitions -/

/-- The shape of a captured `(\d+[a-z]?)` group: a non-empty digit run
followed by at most one lowercase letter. -/
def SecShape (x : Str) : Prop :=
  ∃ d l, x = d ++ l ∧ d ≠ [] ∧ (∀ c ∈ d, isDigitChar c = true) ∧
    (l = [] ∨ ∃ c, l = [c] ∧ isLowerChar c = true)

/-- The configuration under which a second run of
`_fix_hallucinated_citation` rewrites the output of a first run: the first
run repairs a wrong-section citation `§p` into `§{correct} Abs. {p} EStG`,
and `p`'s digit part is at least 5 and also occurs as a numbered list item
at a line start inside subsection (1) of the source text, so the second run
fires the Nummer-as-Absatz rule on the repaired citation. -/
def doubleRewriteRisk (a ref src : Str) : Bool :=
  match findSectionRef ref, searchCitation a with
  | some cp, some (_, m, _) =>
    decide (m.para ≠ cp) && subMarkerInSource m.para src &&
      (decide (5 ≤ natOfDigits (m.para.takeWhile isDigitChar)) &&
        nummerHit (m.para.takeWhile isDigitChar) src)
  | _, _ => false

/-! ## Theorems -/

theorem digit_not_ws {c : Char} (h : isDigitChar c = true) : pyWs c = false := by
  simp only [isDigitChar, Bool.and_eq_true, decide_eq_true_eq] at h
  simp only [pyWs, Bool.or_eq_false_iff, decide_eq_false_iff_not]
  refine ⟨⟨⟨⟨⟨?_, ?_⟩, ?_⟩, ?_⟩, ?_⟩, ?_⟩ <;> rintro rfl <;>
    exact absurd h.1 (by decide)

theorem lower_not_digit {c : Char} (h : isLowerChar c = true) : isDigitChar c = false := by
  simp only [isLowerChar, Bool.and_eq_true, decide_eq_true_eq] at h
  have h9 : ¬ (c ≤ '9') := fun hc => absurd (le_trans h.1 hc) (by decide)
  simp only [isDigitChar]
  rw [Bool.and_eq_false_iff]
  right
  simpa using h9

theorem mem_takeWhile {p : Char → Bool} {l : Str} {x : Char}
    (h : x ∈ l.takeWhile p) : p x = true := by
  induction l with
  | nil => simp [List.takeWhile] at h
  | cons c t ih =>
    rw [List.takeWhile_cons] at h
    by_cases hc : p c = true
    · simp [hc] at h
      rcases h with rfl | h
      · exact hc
      · exact ih h
    · simp [Bool.eq_false_iff.mpr hc] at h

theorem takeWhile_app (p : Char → Bool) (xs ys : Str)
    (hx : ∀ x ∈ xs, p x = true) (hy : ∀ c t, ys = c :: t → p c = false) :
    (xs ++ ys).takeWhile p = xs ∧ (xs ++ ys).dropWhile p = ys := by
  induction xs with
  | nil =>
    cases ys with
    | nil => simp
    | cons c t =>
      have := hy c t rfl
      simp [List.takeWhile_cons, List.dropWhile_cons, this]
  | cons x xs ih =>
    have hx0 : p x = true := hx x (by simp)
    have ih' := ih (fun a ha => hx a (by simp [ha]))
    simp [List.takeWhile_cons, List.dropWhile_cons, hx0, ih'.1, ih'.2]

theorem dropWhile_head_false {p : Char → Bool} {l : Str} {c : Char} {t : Str}
    (h : l.dropWhile p = c :: t) : p c = false := by
  induction l with
  | nil => simp at h
  | cons x xs ih =>
    rw [List.dropWhile_cons] at h
    by_cases hx : p x = true
    · simp [hx] at h; exact ih h
    · rw [Bool.eq_false_iff.mpr hx] at h
      simp at h
      rw [← h.1]
      exact Bool.eq_false_iff.mpr hx

theorem dropWhile_app_cons {p : Char → Bool} {l : Str} {c : Char} {t : Str}
    (h : l.dropWhile p = c :: t) (u : Str) :
    (l ++ u).dropWhile p = c :: (t ++ u) := by
  induction l with
  | nil => simp at h
  | cons x xs ih =>
    rw [List.dropWhile_cons] at h
    rw [List.cons_append, List.dropWhile_cons]
    by_cases hx : p x = true
    · simp [hx] at h ⊢; exact ih h
    · rw [Bool.eq_false_iff.mpr hx] at h ⊢
      simp at h ⊢
      simp [h.1, h.2]

theorem isPrefixOf_self_append (l t : Str) : l.isPrefixOf (l ++ t) = true := by
  rw [List.isPrefixOf_iff_prefix]
  exact List.prefix_append l t

theorem isPrefixOf_exists {l s : Str} (h : l.isPrefixOf s = true) :
    ∃ t, s = l ++ t := by
  rw [List.isPrefixOf_iff_prefix] at h
  obtain ⟨t, ht⟩ := h
  exact ⟨t, ht.symm⟩

theorem takeLetter_decomp (s : Str) : (takeLetter s).1 ++ (takeLetter s).2 = s := by
  cases s with
  | nil => rfl
  | cons c t =>
    unfold takeLetter
    by_cases hc : isLowerChar c = true
    · simp [hc]
    · simp [Bool.eq_false_iff.mpr hc]

theorem takeLetter_fst (s : Str) :
    (takeLetter s).1 = [] ∨ ∃ c, (takeLetter s).1 = [c] ∧ isLowerChar c = true := by
  cases s with
  | nil => left; rfl
  | cons c t =>
    unfold takeLetter
    by_cases hc : isLowerChar c = true
    · right; exact ⟨c, by simp [hc], hc⟩
    · left; simp [Bool.eq_false_iff.mpr hc]

theorem tryAbs_decomp {s con d rest : Str} (h : tryAbs s = some (con, d, rest)) :
    s = con ++ rest ∧ d ≠ [] ∧ ∀ c ∈ d, isDigitChar c = true := by
  unfold tryAbs at h
  simp only [] at h
  split at h
  · exact absurd h (by simp)
  · split at h
    · rename_i hw1 hpre
      split at h
      · exact absurd h (by simp)
      · rename_i hd0
        rw [Option.some.injEq] at h
        simp only [Prod.mk.injEq] at h
        obtain ⟨h1, h2, h3⟩ := h
        subst h1; subst h2; subst h3
        obtain ⟨t, ht⟩ := isPrefixOf_exists hpre
        refine ⟨?_, hd0, fun c hc => mem_takeWhile hc⟩
        conv_lhs => rw [← List.takeWhile_append_dropWhile (p := pyWs) (l := s)]
        rw [ht, List.drop_left]
        conv_lhs =>
          rw [← List.takeWhile_append_dropWhile (p := pyWs) (l := t)]
        conv_lhs =>
          rw [← List.takeWhile_append_dropWhile (p := isDigitChar)
            (l := t.dropWhile pyWs)]
        simp [List.append_assoc]
    · exact absurd h (by simp)

theorem trySatz_decomp {s con rest : Str} (h : trySatz s = some (con, rest)) :
    s = con ++ rest := by
  unfold trySatz at h
  simp only [] at h
  split at h
  · exact absurd h (by simp)
  · split at h
    · rename_i hw1 hpre
      split at h
      · exact absurd h (by simp)
      · rw [Option.some.injEq] at h
        simp only [Prod.mk.injEq] at h
        obtain ⟨h1, h2⟩ := h
        subst h1; subst h2
        obtain ⟨t, ht⟩ := isPrefixOf_exists hpre
        conv_lhs => rw [← List.takeWhile_append_dropWhile (p := pyWs) (l := s)]
        rw [ht, List.drop_left]
        conv_lhs =>
          rw [← List.takeWhile_append_dropWhile (p := pyWs) (l := t)]
        conv_lhs =>
          rw [← List.takeWhile_append_dropWhile (p := isDigitChar)
            (l := t.dropWhile pyWs)]
        simp [List.append_assoc]
    · exact absurd h (by simp)

theorem tryNr_decomp {s con rest : Str} (h : tryNr s = some (con, rest)) :
    s = con ++ rest := by
  unfold tryNr at h
  simp only [] at h
  split at h
  · exact absurd h (by simp)
  · split at h
    · rename_i hw1 hpre
      split at h
      · exact absurd h (by simp)
      · rw [Option.some.injEq] at h
        simp only [Prod.mk.injEq] at h
        obtain ⟨h1, h2⟩ := h
        subst h1; subst h2
        obtain ⟨t, ht⟩ := isPrefixOf_exists hpre
        conv_lhs => rw [← List.takeWhile_append_dropWhile (p := pyWs) (l := s)]
        rw [ht, List.drop_left]
        conv_lhs =>
          rw [← List.takeWhile_append_dropWhile (p := pyWs) (l := t)]
        conv_lhs =>
          rw [← List.takeWhile_append_dropWhile (p := isDigitChar)
            (l := t.dropWhile pyWs)]
        simp [List.append_assoc]
    · exact absurd h (by simp)

theorem tryEStG_decomp {s con rest : Str} (h : tryEStG s = some (con, rest)) :
    s = con ++ rest := by
  unfold tryEStG at h
  simp only [] at h
  split at h
  · exact absurd h (by simp)
  · split at h
    · rename_i hw1 hpre
      rw [Option.some.injEq] at h
      simp only [Prod.mk.injEq] at h
      obtain ⟨h1, h2⟩ := h
      subst h1; subst h2
      obtain ⟨t, ht⟩ := isPrefixOf_exists hpre
      conv_lhs => rw [← List.takeWhile_append_dropWhile (p := pyWs) (l := s)]
      rw [ht, List.drop_left]
      simp [List.append_assoc]
    · exact absurd h (by simp)

theorem extendOpt_pres {f : Str → Option (Str × Str)} (acc : Str × Str)
    (hf : ∀ s con rest, f s = some (con, rest) → s = con ++ rest) :
    (extendOpt f acc).1 ++ (extendOpt f acc).2 = acc.1 ++ acc.2 ∧
      ∃ x, (extendOpt f acc).1 = acc.1 ++ x := by
  unfold extendOpt
  cases hfa : f acc.2 with
  | none => exact ⟨rfl, [], by simp⟩
  | some v =>
    obtain ⟨con, rest⟩ := v
    have := hf _ _ _ hfa
    constructor
    · simp [List.append_assoc, ← this]
    · exact ⟨con, rfl⟩

theorem matchCitationAt_some {s : Str} {m : CitMatch} {rest : Str}
    (h : matchCitationAt s = some (m, rest)) :
    s = m.g0 ++ rest ∧
    (∃ w c t, m.g0 = '§' :: (w ++ c :: t) ∧ (∀ x ∈ w, pyWs x = true) ∧
      pyWs c = false ∧ isDigitChar c = true) ∧
    SecShape m.para ∧
    (∀ a, m.absNum = some a → a ≠ [] ∧ ∀ x ∈ a, isDigitChar x = true) := by
  cases s with
  | nil => exact absurd h (by simp [matchCitationAt])
  | cons c r =>
    unfold matchCitationAt at h
    simp only [] at h
    split at h
    case isFalse => exact absurd h (by simp)
    case isTrue hc =>
      subst hc
      split at h
      case isTrue => exact absurd h (by simp)
      case isFalse hd0 =>
        set w := r.takeWhile pyWs with hw
        set r1 := r.dropWhile pyWs with hr1
        set d := r1.takeWhile isDigitChar with hdd
        set r2 := r1.dropWhile isDigitChar with hr2
        set lt := (takeLetter r2).1 with hlt
        set r3 := (takeLetter r2).2 with hr3
        -- the head digit of the citation
        have hr1d : r1 = d ++ r2 := (List.takeWhile_append_dropWhile ..).symm
        have hrwr : r = w ++ r1 := (List.takeWhile_append_dropWhile ..).symm
        have hdmem : ∀ x ∈ d, isDigitChar x = true := fun x hx => mem_takeWhile hx
        have hwmem : ∀ x ∈ w, pyWs x = true := fun x hx => mem_takeWhile hx
        obtain ⟨d0, d', hdc⟩ : ∃ d0 d', d = d0 :: d' := by
          cases hdn : d with
          | nil => exact absurd hdn hd0
          | cons a b => exact ⟨a, b, rfl⟩
        have hd0dig : isDigitChar d0 = true := hdmem d0 (by simp [hdc])
        have hd0ws : pyWs d0 = false := by
          apply dropWhile_head_false (p := pyWs) (l := r)
          rw [← hr1, hr1d, hdc]; rfl
        have hltr : lt ++ r3 = r2 := takeLetter_decomp r2
        have hshape : SecShape (d ++ lt) :=
          ⟨d, lt, rfl, hd0, hdmem, takeLetter_fst r2⟩
        -- split on the Abs group
        split at h
        case h_1 con dcap rest' habs =>
          obtain ⟨habs1, habs2, habs3⟩ := tryAbs_decomp habs
          rw [Option.some.injEq, Prod.mk.injEq] at h
          obtain ⟨hm, hrest⟩ := h
          subst hm; subst hrest
          have hbase : ('§' :: (w ++ (d ++ lt)) ++ con) ++ rest' = '§' :: r := by
            rw [hrwr, hr1d, ← hltr, habs1]
            simp [List.append_assoc]
          have e1 := extendOpt_pres (f := trySatz)
            ('§' :: (w ++ (d ++ lt)) ++ con, rest')
            (fun s con rest h => trySatz_decomp h)
          have e2 := extendOpt_pres (f := tryNr)
            (extendOpt trySatz ('§' :: (w ++ (d ++ lt)) ++ con, rest'))
            (fun s con rest h => tryNr_decomp h)
          have e3 := extendOpt_pres (f := tryEStG)
            (extendOpt tryNr
              (extendOpt trySatz ('§' :: (w ++ (d ++ lt)) ++ con, rest')))
            (fun s con rest h => tryEStG_decomp h)
          refine ⟨?_, ?_, hshape, ?_⟩
          · simp only []
            rw [e3.1, e2.1, e1.1, hbase]
          · obtain ⟨x1, hx1⟩ := e1.2
            obtain ⟨x2, hx2⟩ := e2.2
            obtain ⟨x3, hx3⟩ := e3.2
            refine ⟨w, d0, d' ++ lt ++ con ++ x1 ++ x2 ++ x3, ?_, hwmem, hd0ws, hd0dig⟩
            simp only []
            rw [hx3, hx2, hx1, hdc]
            simp [List.append_assoc]
          · intro a ha
            simp only [] at ha
            rw [Option.some.injEq] at ha
            subst ha
            exact ⟨habs2, habs3⟩
        case h_2 habs =>
          rw [Option.some.injEq, Prod.mk.injEq] at h
          obtain ⟨hm, hrest⟩ := h
          subst hm; subst hrest
          have hbase : ('§' :: (w ++ (d ++ lt))) ++ r3 = '§' :: r := by
            rw [hrwr, hr1d, ← hltr]
            simp [List.append_assoc]
          have e1 := extendOpt_pres (f := trySatz)
            ('§' :: (w ++ (d ++ lt)), r3)
            (fun s con rest h => trySatz_decomp h)
          have e2 := extendOpt_pres (f := tryNr)
            (extendOpt trySatz ('§' :: (w ++ (d ++ lt)), r3))
            (fun s con rest h => tryNr_decomp h)
          have e3 := extendOpt_pres (f := tryEStG)
            (extendOpt tryNr
              (extendOpt trySatz ('§' :: (w ++ (d ++ lt)), r3)))
            (fun s con rest h => tryEStG_decomp h)
          refine ⟨?_, ?_, hshape, ?_⟩
          · simp only []
            rw [e3.1, e2.1, e1.1, hbase]
          · obtain ⟨x1, hx1⟩ := e1.2
            obtain ⟨x2, hx2⟩ := e2.2
            obtain ⟨x3, hx3⟩ := e3.2
            refine ⟨w, d0, d' ++ lt ++ x1 ++ x2 ++ x3, ?_, hwmem, hd0ws, hd0dig⟩
            simp only []
            rw [hx3, hx2, hx1, hdc]
            simp [List.append_assoc]
          · intro a ha
            simp only [] at ha
            exact absurd ha (by simp)

theorem dropWhile_app_nil {p : Char → Bool} {l : Str} (h : l.dropWhile p = [])
    (u : Str) : (l ++ u).dropWhile p = u.dropWhile p := by
  induction l with
  | nil => simp
  | cons x xs ih =>
    rw [List.dropWhile_cons] at h
    rw [List.cons_append, List.dropWhile_cons]
    by_cases hx : p x = true
    · rw [if_pos hx] at h ⊢
      exact ih h
    · rw [if_neg hx] at h
      exact absurd h (by simp)

theorem matchCitationAt_isSome (s : Str) : (matchCitationAt s).isSome = matchHead s := by
  cases s with
  | nil => rfl
  | cons c r =>
    simp only [matchCitationAt, matchHead]
    by_cases hc : c = '§'
    · rw [if_pos hc, if_pos hc]
      cases hr1 : r.dropWhile pyWs with
      | nil => simp
      | cons c1 t =>
        by_cases h1 : isDigitChar c1 = true
        · simp [List.takeWhile_cons, h1]
        · have h1f : isDigitChar c1 = false := Bool.eq_false_iff.mpr h1
          simp [List.takeWhile_cons, h1f]
    · rw [if_neg hc, if_neg hc]
      rfl

theorem matchHead_of_shape {w : Str} {c : Char} (t : Str)
    (hw : ∀ x ∈ w, pyWs x = true) (hc : pyWs c = false)
    (hd : isDigitChar c = true) : matchHead ('§' :: (w ++ c :: t)) = true := by
  simp only [matchHead]
  rw [if_pos trivial]
  have := (takeWhile_app pyWs w (c :: t) hw
    (by intro a b hab; cases hab; exact hc)).2
  rw [this]
  exact hd

theorem matchHead_congr {p : Str} (hp : p ≠ []) (u v : Str) :
    matchHead (p ++ '§' :: u) = matchHead (p ++ '§' :: v) := by
  cases p with
  | nil => exact absurd rfl hp
  | cons c t =>
    rw [List.cons_append, List.cons_append]
    simp only [matchHead]
    by_cases hc : c = '§'
    · rw [if_pos hc, if_pos hc]
      cases hdt : t.dropWhile pyWs with
      | nil =>
        rw [dropWhile_app_nil hdt, dropWhile_app_nil hdt]
        have h1 : pyWs '§' = false := by decide
        rw [List.dropWhile_cons, List.dropWhile_cons]
        simp [h1]
      | cons x t' =>
        rw [dropWhile_app_cons hdt, dropWhile_app_cons hdt]
    · rw [if_neg hc, if_neg hc]

theorem matchCitationAt_eq_none {s : Str} :
    matchCitationAt s = none ↔ matchHead s = false := by
  rw [← matchCitationAt_isSome]
  cases hm : matchCitationAt s with
  | none => simp
  | some v => simp

theorem searchCitation_some {s pre : Str} {m : CitMatch} {suf : Str}
    (h : searchCitation s = some (pre, m, suf)) :
    s = pre ++ m.g0 ++ suf ∧
    matchCitationAt (m.g0 ++ suf) = some (m, suf) ∧
    ∀ p1 p2, pre = p1 ++ p2 → p2 ≠ [] → matchCitationAt (p2 ++ m.g0 ++ suf) = none := by
  induction s generalizing pre with
  | nil => exact absurd h (by simp [searchCitation])
  | cons c r ih =>
    rw [searchCitation] at h
    cases hm : matchCitationAt (c :: r) with
    | some v =>
      rw [hm] at h
      obtain ⟨m', rest'⟩ := v
      simp only [Option.some.injEq, Prod.mk.injEq] at h
      obtain ⟨h1, h2, h3⟩ := h
      subst h1; subst h2; subst h3
      have hd := (matchCitationAt_some hm).1
      refine ⟨by simpa using hd, by rwa [← hd], ?_⟩
      intro p1 p2 hp hp2
      exact absurd (List.append_eq_nil.mp hp.symm).2 hp2
    | none =>
      rw [hm] at h
      cases hs : searchCitation r with
      | none => rw [hs] at h; exact absurd h (by simp)
      | some v =>
        rw [hs] at h
        obtain ⟨pre', m', rest'⟩ := v
        simp only [Option.some.injEq, Prod.mk.injEq] at h
        obtain ⟨h1, h2, h3⟩ := h
        subst h1; subst h2; subst h3
        obtain ⟨ih1, ih2, ih3⟩ := ih hs
        refine ⟨by simp [ih1], ih2, ?_⟩
        intro p1 p2 hp hp2
        cases p1 with
        | nil =>
          simp at hp
          subst hp
          simp only [List.cons_append]
          rw [← ih1]
          exact hm
        | cons a p1' =>
          simp only [List.cons_append, List.cons.injEq] at hp
          exact ih3 p1' p2 hp.2 hp2

theorem searchCitation_build {pre s : Str} {m : CitMatch} {rest : Str}
    (hm : matchCitationAt s = some (m, rest))
    (hpre : ∀ p1 p2, pre = p1 ++ p2 → p2 ≠ [] → matchCitationAt (p2 ++ s) = none) :
    searchCitation (pre ++ s) = some (pre, m, rest) := by
  induction pre with
  | nil =>
    cases s with
    | nil => exact absurd hm (by simp [matchCitationAt])
    | cons c r => rw [List.nil_append, searchCitation, hm]
  | cons c pre' ih =>
    rw [List.cons_append, searchCitation]
    have hc : matchCitationAt (c :: (pre' ++ s)) = none := by
      have := hpre [] (c :: pre') rfl (by simp)
      simpa using this
    rw [hc]
    rw [ih (fun p1 p2 hp hp2 => hpre (c :: p1) p2 (by simp [hp]) hp2)]

theorem replaceFirstAux_splice {needle repl pre suf : Str} (hne : needle ≠ [])
    (hno : ∀ p1 p2, pre = p1 ++ p2 → p2 ≠ [] →
      needle.isPrefixOf (p2 ++ needle ++ suf) = false) :
    replaceFirstAux needle repl (pre ++ needle ++ suf) = pre ++ repl ++ suf := by
  induction pre with
  | nil =>
    cases hn : needle with
    | nil => exact absurd hn hne
    | cons n0 nt =>
      rw [List.nil_append, List.nil_append]
      have h2 : (n0 :: nt) ++ suf = n0 :: (nt ++ suf) := rfl
      rw [h2]
      simp only [replaceFirstAux]
      rw [← h2, isPrefixOf_self_append]
      simp [List.drop_left]
  | cons c pre' ih =>
    have hfalse : needle.isPrefixOf ((c :: pre') ++ needle ++ suf) = false :=
      hno [] (c :: pre') rfl (by simp)
    have h3 : (c :: pre') ++ needle ++ suf = c :: (pre' ++ needle ++ suf) := by simp
    rw [h3]
    simp only [replaceFirstAux]
    rw [← h3, hfalse]
    rw [if_neg (by decide)]
    have h4 : (c :: pre') ++ repl ++ suf = c :: (pre' ++ repl ++ suf) := by simp
    rw [h4]
    congr 1
    exact ih (fun p1 p2 hp hp2 => hno (c :: p1) p2 (by simp [hp]) hp2)

theorem dropWhile_of_takeWhile_nil {p : Char → Bool} {l : Str}
    (h : l.takeWhile p = []) : l.dropWhile p = l := by
  cases l with
  | nil => rfl
  | cons c t =>
    rw [List.takeWhile_cons] at h
    rw [List.dropWhile_cons]
    by_cases hc : p c = true
    · rw [if_pos hc] at h; simp at h
    · rw [if_neg hc]

theorem replace_splice {a pre suf : Str} {m : CitMatch} (t : Str)
    (hs : searchCitation a = some (pre, m, suf)) :
    replaceFirst m.g0 t a = pre ++ t ++ suf := by
  obtain ⟨ha, hmm, hno⟩ := searchCitation_some hs
  obtain ⟨hd1, ⟨w, c, t0, hg0, hw, hcw, hcd⟩, _, _⟩ := matchCitationAt_some hmm
  have hg0ne : m.g0 ≠ [] := by rw [hg0]; simp
  rw [replaceFirst, if_neg hg0ne, ha]
  apply replaceFirstAux_splice hg0ne
  intro p1 p2 hp hp2
  by_contra hcon
  rw [Bool.not_eq_false] at hcon
  obtain ⟨x, hx⟩ := isPrefixOf_exists hcon
  have hmh : matchHead (p2 ++ m.g0 ++ suf) = false :=
    matchCitationAt_eq_none.mp (hno p1 p2 hp hp2)
  rw [hx] at hmh
  rw [hg0] at hmh
  have : matchHead (('§' :: (w ++ c :: t0)) ++ x) = true := by
    have := matchHead_of_shape (t := t0 ++ x) hw hcw hcd
    simpa [List.append_assoc] using this
  rw [this] at hmh
  cases hmh

theorem searchCitation_rewritten {a pre suf : Str} {m : CitMatch}
    (hs : searchCitation a = some (pre, m, suf)) {u : Str} {m' : CitMatch}
    {rest' : Str} (hm' : matchCitationAt ('§' :: u) = some (m', rest')) :
    searchCitation (pre ++ '§' :: u) = some (pre, m', rest') := by
  obtain ⟨ha, hmm, hno⟩ := searchCitation_some hs
  obtain ⟨hd1, ⟨w, c, t0, hg0, hw, hcw, hcd⟩, _, _⟩ := matchCitationAt_some hmm
  apply searchCitation_build hm'
  intro p1 p2 hp hp2
  rw [matchCitationAt_eq_none]
  have hold : matchHead (p2 ++ m.g0 ++ suf) = false :=
    matchCitationAt_eq_none.mp (hno p1 p2 hp hp2)
  have hcongr := matchHead_congr (p := p2) hp2 u (w ++ c :: (t0 ++ suf))
  have e2 : p2 ++ '§' :: (w ++ c :: (t0 ++ suf)) = p2 ++ m.g0 ++ suf := by
    rw [hg0]; simp
  rw [e2] at hcongr
  rw [hcongr]
  exact hold

theorem tryAbs_build (s dp rst : Str)
    (h : s = ' ' :: 'A' :: 'b' :: 's' :: '.' :: ' ' :: (dp ++ rst))
    (hdp : dp ≠ []) (hdall : ∀ c ∈ dp, isDigitChar c = true)
    (hrst : ∀ c t, rst = c :: t → isDigitChar c = false) :
    tryAbs s = some ((' ' :: absLit) ++ (' ' :: dp), dp, rst) := by
  subst h
  have htw : (dp ++ rst).takeWhile pyWs = [] := by
    cases dp with
    | nil => exact absurd rfl hdp
    | cons d0 d' =>
      rw [List.cons_append, List.takeWhile_cons,
        if_neg (by simp [digit_not_ws (hdall d0 (by simp))])]
  have hdtw := takeWhile_app isDigitChar dp rst hdall hrst
  have eA : pyWs ' ' = true := by decide
  have e1 : List.takeWhile pyWs
      (' ' :: 'A' :: 'b' :: 's' :: '.' :: ' ' :: (dp ++ rst)) = [' '] := by
    rw [List.takeWhile_cons, if_pos eA, List.takeWhile_cons,
      if_neg (by decide)]
  have e2 : List.dropWhile pyWs
      (' ' :: 'A' :: 'b' :: 's' :: '.' :: ' ' :: (dp ++ rst)) =
      'A' :: 'b' :: 's' :: '.' :: ' ' :: (dp ++ rst) := by
    rw [List.dropWhile_cons, if_pos eA, List.dropWhile_cons,
      if_neg (by decide)]
  have e3 : List.isPrefixOf absLit
      ('A' :: 'b' :: 's' :: '.' :: ' ' :: (dp ++ rst)) = true := by
    simp [absLit, List.isPrefixOf]
  have e4 : List.takeWhile pyWs (' ' :: (dp ++ rst)) = [' '] := by
    rw [List.takeWhile_cons, if_pos eA, htw]
  have e5 : List.dropWhile pyWs (' ' :: (dp ++ rst)) = dp ++ rst := by
    rw [List.dropWhile_cons, if_pos eA, dropWhile_of_takeWhile_nil htw]
  unfold tryAbs
  simp only []
  rw [e1, e2]
  rw [if_neg (by simp)]
  rw [e3, if_pos rfl]
  rw [show List.drop absLit.length
      ('A' :: 'b' :: 's' :: '.' :: ' ' :: (dp ++ rst)) = ' ' :: (dp ++ rst)
    from rfl]
  rw [e4, e5, hdtw.1, hdtw.2]
  rw [if_neg hdp]
  rfl

theorem matchCitationAt_build {R d rst lt r3 con dcap r4 : Str}
    (h1 : R.takeWhile pyWs = [])
    (h2 : R.takeWhile isDigitChar = d) (h3 : R.dropWhile isDigitChar = rst)
    (hd : d ≠ [])
    (h4 : takeLetter rst = (lt, r3))
    (h5 : tryAbs r3 = some (con, dcap, r4)) :
    ∃ g0 rest, matchCitationAt ('§' :: R) =
      some ({ g0 := g0, para := d ++ lt, absNum := some dcap }, rest) := by
  unfold matchCitationAt
  simp only []
  rw [if_pos trivial]
  rw [dropWhile_of_takeWhile_nil h1, h2, h3, h1, if_neg hd, h4]
  simp only []
  rw [h5]
  exact ⟨_, _, rfl⟩

theorem matchCitationAt_fixTarget1 {cp para : Str} (suf : Str)
    (hcp : SecShape cp) (hpara : SecShape para) :
    ∃ g0 rest, matchCitationAt (fixTarget1 cp para ++ suf) =
      some ({ g0 := g0, para := cp,
              absNum := some (para.takeWhile isDigitChar) }, rest) := by
  obtain ⟨dc, lc, rfl, hdc, hdcall, hlc⟩ := hcp
  obtain ⟨dp, lp, rfl, hdp, hdpall, hlp⟩ := hpara
  have hylp : ∀ c t, lp ++ (' ' :: 'E' :: 'S' :: 't' :: 'G' :: suf) = c :: t →
      isDigitChar c = false := by
    rcases hlp with rfl | ⟨ch, rfl, hch⟩
    · intro c t h
      simp only [List.nil_append, List.cons.injEq] at h
      rw [← h.1]; decide
    · intro c t h
      simp only [List.cons_append, List.cons.injEq] at h
      rw [← h.1]; exact lower_not_digit hch
  have hpw : (dp ++ lp).takeWhile isDigitChar = dp := by
    apply (takeWhile_app isDigitChar dp lp hdpall ?_).1
    intro c t h
    rcases hlp with rfl | ⟨ch, rfl, hch⟩
    · cases h
    · simp only [List.cons.injEq] at h
      rw [← h.1]; exact lower_not_digit hch
  rw [hpw]
  have hR : fixTarget1 (dc ++ lc) (dp ++ lp) ++ suf =
      '§' :: (dc ++ (lc ++ (' ' :: 'A' :: 'b' :: 's' :: '.' :: ' ' ::
        (dp ++ (lp ++ (' ' :: 'E' :: 'S' :: 't' :: 'G' :: suf)))))) := by
    simp [fixTarget1, List.append_assoc]
  rw [hR]
  have hylc : ∀ c t, (lc ++ (' ' :: 'A' :: 'b' :: 's' :: '.' :: ' ' ::
      (dp ++ (lp ++ (' ' :: 'E' :: 'S' :: 't' :: 'G' :: suf))))) = c :: t →
      isDigitChar c = false := by
    rcases hlc with rfl | ⟨ch, rfl, hch⟩
    · intro c t h
      simp only [List.nil_append, List.cons.injEq] at h
      rw [← h.1]; decide
    · intro c t h
      simp only [List.cons_append, List.cons.injEq] at h
      rw [← h.1]; exact lower_not_digit hch
  have hsp := takeWhile_app isDigitChar dc
    (lc ++ (' ' :: 'A' :: 'b' :: 's' :: '.' :: ' ' ::
      (dp ++ (lp ++ (' ' :: 'E' :: 'S' :: 't' :: 'G' :: suf))))) hdcall hylc
  have h1 : (dc ++ (lc ++ (' ' :: 'A' :: 'b' :: 's' :: '.' :: ' ' ::
      (dp ++ (lp ++ (' ' :: 'E' :: 'S' :: 't' :: 'G' :: suf)))))).takeWhile pyWs
      = [] := by
    cases dc with
    | nil => exact absurd rfl hdc
    | cons c0 d' =>
      rw [List.cons_append, List.takeWhile_cons,
        if_neg (by simp [digit_not_ws (hdcall c0 (by simp))])]
  have h4 : takeLetter (lc ++ (' ' :: 'A' :: 'b' :: 's' :: '.' :: ' ' ::
      (dp ++ (lp ++ (' ' :: 'E' :: 'S' :: 't' :: 'G' :: suf))))) =
      (lc, ' ' :: 'A' :: 'b' :: 's' :: '.' :: ' ' ::
        (dp ++ (lp ++ (' ' :: 'E' :: 'S' :: 't' :: 'G' :: suf)))) := by
    rcases hlc with rfl | ⟨ch, rfl, hch⟩
    · rw [List.nil_append]
      rfl
    · rw [List.cons_append]
      simp only [takeLetter]
      rw [if_pos hch]
      simp
  have h5 := tryAbs_build (' ' :: 'A' :: 'b' :: 's' :: '.' :: ' ' ::
      (dp ++ (lp ++ (' ' :: 'E' :: 'S' :: 't' :: 'G' :: suf)))) dp
      (lp ++ (' ' :: 'E' :: 'S' :: 't' :: 'G' :: suf)) rfl hdp hdpall hylp
  exact matchCitationAt_build h1 hsp.1 hsp.2 hdc h4 h5

theorem matchCitationAt_fixTarget2 {cp : Str} (ad suf : Str) (hcp : SecShape cp) :
    ∃ g0 rest, matchCitationAt (fixTarget2 cp ad ++ suf) =
      some ({ g0 := g0, para := cp, absNum := some ['1'] }, rest) := by
  obtain ⟨dc, lc, rfl, hdc, hdcall, hlc⟩ := hcp
  have hR : fixTarget2 (dc ++ lc) ad ++ suf =
      '§' :: (dc ++ (lc ++ (' ' :: 'A' :: 'b' :: 's' :: '.' :: ' ' ::
        ('1' :: ' ' :: 'N' :: 'r' :: '.' :: ' ' ::
          (ad ++ (' ' :: 'E' :: 'S' :: 't' :: 'G' :: suf)))))) := by
    simp [fixTarget2, List.append_assoc]
  rw [hR]
  have hylc : ∀ c t, (lc ++ (' ' :: 'A' :: 'b' :: 's' :: '.' :: ' ' ::
      ('1' :: ' ' :: 'N' :: 'r' :: '.' :: ' ' ::
        (ad ++ (' ' :: 'E' :: 'S' :: 't' :: 'G' :: suf))))) = c :: t →
      isDigitChar c = false := by
    rcases hlc with rfl | ⟨ch, rfl, hch⟩
    · intro c t h
      simp only [List.nil_append, List.cons.injEq] at h
      rw [← h.1]; decide
    · intro c t h
      simp only [List.cons_append, List.cons.injEq] at h
      rw [← h.1]; exact lower_not_digit hch
  have hsp := takeWhile_app isDigitChar dc
    (lc ++ (' ' :: 'A' :: 'b' :: 's' :: '.' :: ' ' ::
      ('1' :: ' ' :: 'N' :: 'r' :: '.' :: ' ' ::
        (ad ++ (' ' :: 'E' :: 'S' :: 't' :: 'G' :: suf))))) hdcall hylc
  have h1 : (dc ++ (lc ++ (' ' :: 'A' :: 'b' :: 's' :: '.' :: ' ' ::
      ('1' :: ' ' :: 'N' :: 'r' :: '.' :: ' ' ::
        (ad ++ (' ' :: 'E' :: 'S' :: 't' :: 'G' :: suf)))))).takeWhile pyWs
      = [] := by
    cases dc with
    | nil => exact absurd rfl hdc
    | cons c0 d' =>
      rw [List.cons_append, List.takeWhile_cons,
        if_neg (by simp [digit_not_ws (hdcall c0 (by simp))])]
  have h4 : takeLetter (lc ++ (' ' :: 'A' :: 'b' :: 's' :: '.' :: ' ' ::
      ('1' :: ' ' :: 'N' :: 'r' :: '.' :: ' ' ::
        (ad ++ (' ' :: 'E' :: 'S' :: 't' :: 'G' :: suf))))) =
      (lc, ' ' :: 'A' :: 'b' :: 's' :: '.' :: ' ' ::
        ('1' :: ' ' :: 'N' :: 'r' :: '.' :: ' ' ::
          (ad ++ (' ' :: 'E' :: 'S' :: 't' :: 'G' :: suf)))) := by
    rcases hlc with rfl | ⟨ch, rfl, hch⟩
    · rw [List.nil_append]
      rfl
    · rw [List.cons_append]
      simp only [takeLetter]
      rw [if_pos hch]
      simp
  have h5 := tryAbs_build (' ' :: 'A' :: 'b' :: 's' :: '.' :: ' ' ::
      ('1' :: ' ' :: 'N' :: 'r' :: '.' :: ' ' ::
        (ad ++ (' ' :: 'E' :: 'S' :: 't' :: 'G' :: suf))))
      ['1']
      (' ' :: 'N' :: 'r' :: '.' :: ' ' ::
        (ad ++ (' ' :: 'E' :: 'S' :: 't' :: 'G' :: suf)))
      rfl (by simp) (by intro c hc; simp at hc; rw [hc]; decide)
      (by
        intro c t h
        simp only [List.cons.injEq] at h
        rw [← h.1]; decide)
  exact matchCitationAt_build h1 hsp.1 hsp.2 hdc h4 h5

theorem fix_eq_noRef (answer : Str) {ref : Str} (src : Str)
    (href : findSectionRef ref = none) :
    fixHallucinatedCitation answer ref src = answer := by
  unfold fixHallucinatedCitation
  rw [href]

theorem fix_eq_noCit {answer ref src : Str} {cp : Str}
    (href : findSectionRef ref = some cp)
    (hsearch : searchCitation answer = none) :
    fixHallucinatedCitation answer ref src = answer := by
  unfold fixHallucinatedCitation
  rw [href, hsearch]

theorem fix_eq_case1 (src : Str) {answer ref : Str} {cp pre suf : Str} {m : CitMatch}
    (href : findSectionRef ref = some cp)
    (hsearch : searchCitation answer = some (pre, m, suf))
    (hne : m.para ≠ cp) :
    fixHallucinatedCitation answer ref src =
      if subMarkerInSource m.para src then
        replaceFirst m.g0 (fixTarget1 cp m.para) answer
      else answer := by
  unfold fixHallucinatedCitation
  rw [href, hsearch]
  simp only []
  rw [if_pos hne]

theorem fix_eq_case2 (src : Str) {answer ref : Str} {cp pre suf : Str} {m : CitMatch}
    {ad : Str}
    (href : findSectionRef ref = some cp)
    (hsearch : searchCitation answer = some (pre, m, suf))
    (heq : m.para = cp) (habs : m.absNum = some ad) :
    fixHallucinatedCitation answer ref src =
      if 5 ≤ natOfDigits ad then
        (if nummerHit ad src then replaceFirst m.g0 (fixTarget2 cp ad) answer
         else answer)
      else answer := by
  unfold fixHallucinatedCitation
  rw [href, hsearch]
  simp only []
  rw [if_neg (by simp [heq]), habs]
  simp only []
  by_cases h5 : 5 ≤ natOfDigits ad
  · rw [if_pos h5, if_pos h5]
    unfold nummerHit
    cases hb : absatz1Block src with
    | none => rw [if_neg (by simp)]
    | some b => simp only []
  · rw [if_neg h5, if_neg h5]

theorem fix_eq_case2_none (src : Str) {answer ref : Str} {cp pre suf : Str} {m : CitMatch}
    (href : findSectionRef ref = some cp)
    (hsearch : searchCitation answer = some (pre, m, suf))
    (heq : m.para = cp) (habs : m.absNum = none) :
    fixHallucinatedCitation answer ref src = answer := by
  unfold fixHallucinatedCitation
  rw [href, hsearch]
  simp only []
  rw [if_neg (by simp [heq]), habs]

theorem matchSecAt_shape {s g : Str} (h : matchSecAt s = some g) : SecShape g := by
  cases s with
  | nil => exact absurd h (by simp [matchSecAt])
  | cons c r =>
    unfold matchSecAt at h
    simp only [] at h
    split at h
    case isFalse => exact absurd h (by simp)
    case isTrue hc =>
      split at h
      case isTrue => exact absurd h (by simp)
      case isFalse hd =>
        rw [Option.some.injEq] at h
        subst h
        exact ⟨_, _, rfl, hd, fun x hx => mem_takeWhile hx,
          takeLetter_fst _⟩

theorem findSectionRef_shape {ref cp : Str} (h : findSectionRef ref = some cp) :
    SecShape cp := by
  induction ref with
  | nil => exact absurd h (by simp [findSectionRef])
  | cons c r ih =>
    rw [findSectionRef] at h
    cases hm : matchSecAt (c :: r) with
    | some g =>
      rw [hm] at h
      rw [Option.some.injEq] at h
      subst h
      exact matchSecAt_shape hm
    | none =>
      rw [hm] at h
      exact ih h

/-- **C1** Citation repair, wrong-section case: when the first parsed
citation of the answer names a section different from the one parsed from
the selected chunk legal reference, the repair rewrites exactly the first
citation occurrence to `§{correct} Abs. {cited} EStG` when the cited number
occurs parenthesized in the chunk text, and otherwise returns the answer
character-for-character unchanged. -/
theorem c1_wrong_section_repair (answer ref src cp pre suf : Str) (m : CitMatch)
    (href : findSectionRef ref = some cp)
    (hsearch : searchCitation answer = some (pre, m, suf))
    (hne : m.para ≠ cp) :
    (subMarkerInSource m.para src = true →
      fixHallucinatedCitation answer ref src =
        pre ++ fixTarget1 cp m.para ++ suf) ∧
    (subMarkerInSource m.para src = false →
      fixHallucinatedCitation answer ref src = answer) := by
  constructor
  · intro hsm
    rw [fix_eq_case1 src href hsearch hne, if_pos hsm]
    exact replace_splice _ hsearch
  · intro hsm
    rw [fix_eq_case1 src href hsearch hne, if_neg (by simp [hsm])]

/-- **C4** Citation repair, Nummer-as-Absatz case: when the first parsed
citation has the correct section number and cites subsection `n`, the
citation is rewritten to `§{section} Abs. 1 Nr. {n}` exactly when `n ≥ 5`
and `n.` appears as a numbered list item at a line start (allowing leading
whitespace, per the pattern) inside subsection (1) of the chunk text;
otherwise the answer is returned unchanged. -/
theorem c4_nummer_as_absatz_repair (answer ref src cp pre suf : Str) (m : CitMatch) (ad : Str)
    (href : findSectionRef ref = some cp)
    (hsearch : searchCitation answer = some (pre, m, suf))
    (heq : m.para = cp) (habs : m.absNum = some ad) :
    (5 ≤ natOfDigits ad → nummerHit ad src = true →
      fixHallucinatedCitation answer ref src =
        pre ++ fixTarget2 cp ad ++ suf) ∧
    (natOfDigits ad < 5 ∨ nummerHit ad src = false →
      fixHallucinatedCitation answer ref src = answer) := by
  constructor
  · intro h5 hhit
    rw [fix_eq_case2 src href hsearch heq habs, if_pos h5, if_pos hhit]
    exact replace_splice _ hsearch
  · intro hd
    rw [fix_eq_case2 src href hsearch heq habs]
    by_cases h5 : 5 ≤ natOfDigits ad
    · rw [if_pos h5]
      rcases hd with h5' | hhit
      · omega
      · rw [if_neg (by simp [hhit])]
    · rw [if_neg h5]

/-- **C2 amended** Citation repair is idempotent unless the first pass
performs a wrong-section rewrite whose cited number both is at least 5 and
occurs as a numbered list item at a line start inside subsection (1) of the
source text (the `doubleRewriteRisk` configuration, under which the second
pass fires the Nummer-as-Absatz rule on the repaired citation). -/
theorem c2_idempotent_unless_double_rewrite (a ref src : Str) (h : doubleRewriteRisk a ref src = false) :
    fixHallucinatedCitation (fixHallucinatedCitation a ref src) ref src =
      fixHallucinatedCitation a ref src := by
  cases href : findSectionRef ref with
  | none => rw [fix_eq_noRef (fixHallucinatedCitation a ref src) src href,
      fix_eq_noRef a src href]
  | some cp =>
    cases hsearch : searchCitation a with
    | none =>
      have ha : fixHallucinatedCitation a ref src = a := fix_eq_noCit href hsearch
      rw [ha]; exact ha
    | some v =>
      obtain ⟨pre, m, suf⟩ := v
      by_cases hpc : m.para = cp
      · cases habs : m.absNum with
        | none =>
          have ha := fix_eq_case2_none src href hsearch hpc habs
          rw [ha]; exact ha
        | some ad =>
          have heqc := fix_eq_case2 src href hsearch hpc habs
          by_cases h5 : 5 ≤ natOfDigits ad
          · by_cases hhit : nummerHit ad src = true
            · have ha : fixHallucinatedCitation a ref src =
                  pre ++ fixTarget2 cp ad ++ suf := by
                rw [heqc, if_pos h5, if_pos hhit]
                exact replace_splice _ hsearch
              rw [ha, List.append_assoc]
              have hcp_shape := findSectionRef_shape href
              obtain ⟨g0', rest', hparse⟩ :=
                matchCitationAt_fixTarget2 ad suf hcp_shape
              have hse := searchCitation_rewritten hsearch hparse
              have hse' : searchCitation (pre ++ (fixTarget2 cp ad ++ suf)) =
                  some (pre, ⟨g0', cp, some ['1']⟩, rest') := hse
              have heq2 := fix_eq_case2 src href hse' rfl rfl
              rw [heq2]
              rw [if_neg (by decide)]
            · have ha : fixHallucinatedCitation a ref src = a := by
                rw [heqc, if_pos h5, if_neg hhit]
              rw [ha]; exact ha
          · have ha : fixHallucinatedCitation a ref src = a := by
              rw [heqc, if_neg h5]
            rw [ha]; exact ha
      · have heqc := fix_eq_case1 src href hsearch hpc
        by_cases hsm : subMarkerInSource m.para src = true
        · have ha : fixHallucinatedCitation a ref src =
              pre ++ fixTarget1 cp m.para ++ suf := by
            rw [heqc, if_pos hsm]
            exact replace_splice _ hsearch
          rw [ha, List.append_assoc]
          have hcp_shape := findSectionRef_shape href
          have hpara_shape : SecShape m.para :=
            ((matchCitationAt_some (searchCitation_some hsearch).2.1).2.2).1
          obtain ⟨g0', rest', hparse⟩ :=
            matchCitationAt_fixTarget1 suf hcp_shape hpara_shape
          have hse := searchCitation_rewritten hsearch hparse
          have hse' : searchCitation (pre ++ (fixTarget1 cp m.para ++ suf)) =
              some (pre, ⟨g0', cp, some (m.para.takeWhile isDigitChar)⟩, rest') :=
            hse
          have heq2 := fix_eq_case2 src href hse' rfl rfl
          rw [heq2]
          by_cases h5' : 5 ≤ natOfDigits (m.para.takeWhile isDigitChar)
          · rw [if_pos h5']
            have hh : nummerHit (m.para.takeWhile isDigitChar) src = false := by
              unfold doubleRewriteRisk at h
              rw [href, hsearch] at h
              simp only [] at h
              simpa [hpc, hsm, h5'] using h
            rw [if_neg (by simp [hh])]
          · rw [if_neg h5']
        · have ha : fixHallucinatedCitation a ref src = a := by
            rw [heqc, if_neg (by simp [hsm])]
          rw [ha]; exact ha

/-- **C2 counterexample** Citation repair is not idempotent on all inputs:
on the answer `Siehe §9.` with reference `EStG §20` and a source whose
subsection (1) lists item `9.` and which also contains `(9)`, the first
pass rewrites to `§20 Abs. 9 EStG` and the second pass rewrites again to
`§20 Abs. 1 Nr. 9 EStG`. -/
theorem c2_idempotence_counterexample :
    fixHallucinatedCitation
      (fixHallucinatedCitation "Siehe §9.".toList "EStG §20".toList
        "(1) Text\n9. Punkt x\n(2) Weiter\n(9) Anderes".toList)
      "EStG §20".toList "(1) Text\n9. Punkt x\n(2) Weiter\n(9) Anderes".toList ≠
    fixHallucinatedCitation "Siehe §9.".toList "EStG §20".toList
      "(1) Text\n9. Punkt x\n(2) Weiter\n(9) Anderes".toList := by
  decide

/-- Witness for the amended C2 at a concrete input. -/
theorem c2_idempotent_unless_double_rewrite_witness :
    doubleRewriteRisk "Siehe §9.".toList "EStG §20".toList "(2) blah (9) x".toList
      = false ∧
    fixHallucinatedCitation
      (fixHallucinatedCitation "Siehe §9.".toList "EStG §20".toList
        "(2) blah (9) x".toList)
      "EStG §20".toList "(2) blah (9) x".toList =
    fixHallucinatedCitation "Siehe §9.".toList "EStG §20".toList
      "(2) blah (9) x".toList :=
  ⟨by decide, c2_idempotent_unless_double_rewrite _ _ _ (by decide)⟩

/-- Witness for C1 at a concrete input. -/
theorem c1_wrong_section_repair_witness :
    fixHallucinatedCitation "Siehe §9.".toList "EStG §20".toList
      "(2) blah (9) x".toList = "Siehe §20 Abs. 9 EStG.".toList := by
  have h := (c1_wrong_section_repair "Siehe §9.".toList "EStG §20".toList
      "(2) blah (9) x".toList ['2', '0'] "Siehe ".toList ['.']
      ⟨['§', '9'], ['9'], none⟩ (by decide) (by decide) (by decide)).1 (by decide)
  rw [h]
  decide

/-- Witness for C4 at a concrete input. -/
theorem c4_nummer_as_absatz_repair_witness :
    fixHallucinatedCitation "Siehe §20 Abs. 5.".toList "EStG §20".toList
      "(1) a\n5. b\n(2) c".toList = "Siehe §20 Abs. 1 Nr. 5 EStG.".toList := by
  have h := (c4_nummer_as_absatz_repair "Siehe §20 Abs. 5.".toList "EStG §20".toList
      "(1) a\n5. b\n(2) c".toList ['2', '0'] "Siehe ".toList ['.']
      ⟨"§20 Abs. 5".toList, ['2', '0'], some ['5']⟩ ['5']
      (by decide) (by decide) (by decide) (by decide)).1 (by decide) (by decide)
  rw [h]
  decide

theorem findDocFor_eq (answer n : Str) (docs : List Doc) :
    findDocFor answer n docs = docs.find? (fun d => selMatch answer n d) := by
  induction docs with
  | nil => rfl
  | cons d ds ih =>
    rw [findDocFor, List.find?_cons]
    by_cases hd : selMatch answer n d = true
    · rw [if_pos hd, hd]
    · rw [if_neg hd, Bool.eq_false_iff.mpr hd, ih]

theorem findPair_eq (answer : Str) (nums : List Str) (docs : List Doc) :
    findPair answer nums docs =
      ((nums.flatMap (fun n => docs.map (fun d => (n, d)))).find?
        (fun p => selMatch answer p.1 p.2)).map Prod.snd := by
  induction nums with
  | nil => rfl
  | cons n ns ih =>
    rw [findPair, List.flatMap_cons, List.find?_append]
    have hmap : (docs.map (fun d => (n, d))).find?
        (fun p => selMatch answer p.1 p.2) =
        (docs.find? (fun d => selMatch answer n d)).map (fun d => (n, d)) := by
      rw [List.find?_map]
      rfl
    rw [hmap, findDocFor_eq]
    cases hf : docs.find? (fun d => selMatch answer n d) with
    | some d => simp
    | none => simpa using ih

/-- **C3 amended** Document selection: with no section number in the
answer the top-ranked candidate is selected; otherwise the scan selects the
first pair, in number-major candidate-minor order, whose number occurs as a
substring of the legal reference (not an exact section-number match) or
passes the parenthesized-subsection/keyword-overlap test on that same
candidate, defaulting to the top-ranked candidate. -/
theorem c3_selection_scan_refinement (answer : Str) (docs : List Doc) :
    smartDocumentSelection answer docs = selectionSpecC3 answer docs ∧
    (extractNums answer = [] → smartDocumentSelection answer docs = docs.head?) := by
  constructor
  · unfold smartDocumentSelection selectionSpecC3
    by_cases hn : extractNums answer = []
    · rw [if_pos hn, if_pos hn]
    · rw [if_neg hn, if_neg hn, findPair_eq]
      cases hf : (((extractNums answer).flatMap
          (fun n => docs.map (fun d => (n, d)))).find?
          (fun p => selMatch answer p.1 p.2)) with
      | none => simp
      | some p => simp
  · intro hn
    unfold smartDocumentSelection
    rw [if_pos hn]

/-- **C3 counterexample** The extracted number `9` exactly matches the
section number of the second candidate only, yet the code selects the first
candidate because `9` occurs as a substring of its reference `EStG §19`:
exact section matching is actually substring containment, so the claimed
exact-match rule is violated. -/
theorem c3_exact_match_counterexample :
    extractNums "Laut §9 gilt dies.".toList = [['9']] ∧
    findSectionRef (docLegalRef ⟨"x".toList, some "EStG §9".toList, none⟩) =
      some ['9'] ∧
    findSectionRef (docLegalRef ⟨"nichts".toList, some "EStG §19".toList, none⟩) =
      some ['1', '9'] ∧
    smartDocumentSelection "Laut §9 gilt dies.".toList
      [⟨"nichts".toList, some "EStG §19".toList, none⟩,
       ⟨"x".toList, some "EStG §9".toList, none⟩] =
      some ⟨"nichts".toList, some "EStG §19".toList, none⟩ ∧
    (⟨"nichts".toList, some "EStG §19".toList, none⟩ : Doc) ≠
      ⟨"x".toList, some "EStG §9".toList, none⟩ := by
  refine ⟨by decide, by decide, by decide, by decide, by decide⟩

/-- Witness for the amended C3 at a concrete input. -/
theorem c3_selection_scan_refinement_witness :
    smartDocumentSelection "Keine Zitate.".toList
      [⟨"a".toList, some "EStG §6".toList, none⟩] =
      some ⟨"a".toList, some "EStG §6".toList, none⟩ := by
  have h := (c3_selection_scan_refinement "Keine Zitate.".toList
    [⟨"a".toList, some "EStG §6".toList, none⟩]).2 (by decide)
  rw [h]
  rfl


theorem extractQuote_ok (raw : Str) (tn : Option Int) :
    extractQuote (.ok raw) tn =
      if tier1Valid (pyStrip raw) = true then pyStrip raw
      else quoteFallback tn := rfl

theorem extractQuote_err (e : Unit) (tn : Option Int) :
    extractQuote (.error e) tn = quoteFallback tn := rfl

theorem quoteFallback_some (n : Int) :
    quoteFallback (some n) =
      if n = 0 then genericQuoteMsg
      else
        match fallbackQuotes.lookup n with
        | some q => q
        | none => genericQuoteMsg := rfl

theorem lookup_quotes_ne_nil {n : Int} {q : Str}
    (h : fallbackQuotes.lookup n = some q) : q ≠ [] := by
  simp only [fallbackQuotes, List.lookup] at h
  split at h
  · rw [Option.some.injEq] at h; subst h; decide
  · split at h
    · rw [Option.some.injEq] at h; subst h; decide
    · split at h
      · rw [Option.some.injEq] at h; subst h; decide
      · split at h
        · rw [Option.some.injEq] at h; subst h; decide
        · exact absurd h (by simp)

theorem quoteFallback_ne_nil (tn : Option Int) : quoteFallback tn ≠ [] := by
  cases tn with
  | none => decide
  | some n =>
    rw [quoteFallback_some]
    by_cases h0 : n = 0
    · rw [if_pos h0]; decide
    · rw [if_neg h0]
      cases hl : fallbackQuotes.lookup n with
      | none => decide
      | some q => exact lookup_quotes_ne_nil hl

/-- **C5** Quote extraction totality: `extractQuote` always returns a
non-empty string (it is a total function, so no exception propagates); a
tier-1 result is accepted exactly when the stripped text has at least 50
characters and contains no failure-indicating phrase; on tier-1 failure or
exception, a task number registered in the fallback table yields the
registered non-empty quote verbatim and an unregistered task number yields
the fixed generic rephrase message. -/
theorem c5_quote_extraction_totality (tier1 : Except Unit Str) (tn : Option Int) :
    extractQuote tier1 tn ≠ [] ∧
    (∀ raw, tier1 = .ok raw →
      (tier1Valid (pyStrip raw) = true →
        extractQuote tier1 tn = pyStrip raw ∧ 50 ≤ (pyStrip raw).length ∧
          ∀ kw ∈ failureKeywords,
            containsSub (pyLower kw) (pyLower (pyStrip raw)) = false) ∧
      (tier1Valid (pyStrip raw) = false →
        extractQuote tier1 tn = quoteFallback tn)) ∧
    (∀ e, tier1 = .error e → extractQuote tier1 tn = quoteFallback tn) ∧
    (∀ n q, tn = some n → fallbackQuotes.lookup n = some q →
      quoteFallback tn = q ∧ q ≠ []) ∧
    (tn = none → quoteFallback tn = genericQuoteMsg) ∧
    (∀ n, tn = some n → fallbackQuotes.lookup n = none →
      quoteFallback tn = genericQuoteMsg) := by
  refine ⟨?_, ?_, ?_, ?_, ?_, ?_⟩
  · cases tier1 with
    | error e => rw [extractQuote_err]; exact quoteFallback_ne_nil tn
    | ok raw =>
      rw [extractQuote_ok]
      by_cases hv : tier1Valid (pyStrip raw) = true
      · rw [if_pos hv]
        have h50 : 50 ≤ (pyStrip raw).length := by
          unfold tier1Valid at hv
          rw [Bool.and_eq_true] at hv
          simpa using hv.1
        intro hnil
        rw [hnil] at h50
        simp at h50
      · rw [if_neg hv]
        exact quoteFallback_ne_nil tn
  · intro raw hraw
    subst hraw
    constructor
    · intro hv
      refine ⟨by rw [extractQuote_ok, if_pos hv], ?_, ?_⟩
      · unfold tier1Valid at hv
        rw [Bool.and_eq_true] at hv
        simpa using hv.1
      · intro kw hkw
        unfold tier1Valid at hv
        rw [Bool.and_eq_true] at hv
        have h2 := hv.2
        simp only [Bool.not_eq_true'] at h2
        rw [List.any_eq_false] at h2
        have hk := h2 kw hkw
        simpa using hk
    · intro hv
      rw [extractQuote_ok, if_neg (by simp [hv])]
  · intro e he
    subst he
    rfl
  · intro n q htn hl
    subst htn
    have hn0 : n ≠ 0 := by
      intro h0
      subst h0
      rw [show fallbackQuotes.lookup (0 : Int) = none from by decide] at hl
      cases hl
    rw [quoteFallback_some, if_neg hn0, hl]
    exact ⟨rfl, lookup_quotes_ne_nil hl⟩
  · intro htn; subst htn; rfl
  · intro n htn hl
    subst htn
    rw [quoteFallback_some]
    by_cases h0 : n = 0
    · rw [if_pos h0]
    · rw [if_neg h0, hl]

/-- Witness for C5 at a concrete input (tier-1 exception, task 3). -/
theorem c5_quote_extraction_totality_witness :
    extractQuote (Except.error ()) (some 3) ≠ [] ∧
    extractQuote (Except.error ()) (some 3) = quoteFallback (some 3) ∧
    quoteFallback (some 3) =
      "Bei der Ermittlung der Einkünfte aus Kapitalvermögen ist als Werbungskosten ein Betrag von 1000 Euro abzuziehen (Sparer-Pauschbetrag);".toList :=
  ⟨(c5_quote_extraction_totality (Except.error ()) (some 3)).1,
   (c5_quote_extraction_totality (Except.error ()) (some 3)).2.2.1 () rfl,
   ((c5_quote_extraction_totality (Except.error ()) (some 3)).2.2.2.1 3 _ rfl (by decide)).1⟩

/-- **C9 amended** Index-load retry: a missing path yields no retriever
and no attempts; otherwise up to 3 attempts run, with backoff waits of 1s
and 2s between consecutive failed attempts (`2 ** attempt` for attempts 0
and 1; no wait follows the third and final attempt, so a 4s wait never
occurs); after the final failure the retriever is `none` and the pipeline
does not serve. -/
theorem c9_retry_waits_one_two {ρ : Type} (tryLoad : Nat → Option ρ) :
    (loadRetriever false tryLoad = (none, [])) ∧
    (tryLoad 0 = none → tryLoad 1 = none → tryLoad 2 = none →
      loadRetriever true tryLoad = (none, [1, 2]) ∧
      pipelineServes (loadRetriever true tryLoad).1 = false) ∧
    (∀ r, tryLoad 0 = some r → loadRetriever true tryLoad = (some r, [])) ∧
    (∀ r, tryLoad 0 = none → tryLoad 1 = some r →
      loadRetriever true tryLoad = (some r, [1])) ∧
    (∀ r, tryLoad 0 = none → tryLoad 1 = none → tryLoad 2 = some r →
      loadRetriever true tryLoad = (some r, [1, 2])) := by
  refine ⟨rfl, ?_, ?_, ?_, ?_⟩
  · intro h0 h1 h2
    constructor
    · simp [loadRetriever, loadLoop, h0, h1, h2]
    · simp [loadRetriever, loadLoop, h0, h1, h2, pipelineServes]
  · intro r h0
    simp [loadRetriever, loadLoop, h0]
  · intro r h0 h1
    simp [loadRetriever, loadLoop, h0, h1]
  · intro r h0 h1 h2
    simp [loadRetriever, loadLoop, h0, h1, h2]

/-- **C9 counterexample** When all three load attempts fail, the waits
actually slept are `[1, 2]`, not the claimed `[1, 2, 4]`. -/
theorem c9_backoff_counterexample :
    (loadRetriever true (fun _ => (none : Option Unit))).2 = [1, 2] ∧
    (loadRetriever true (fun _ => (none : Option Unit))).2 ≠ [1, 2, 4] := by
  constructor
  · rfl
  · decide

/-- Witness for the amended C9 at a concrete input. -/
theorem c9_retry_waits_one_two_witness :
    loadRetriever true (fun _ => (none : Option Unit)) = (none, [1, 2]) ∧
    pipelineServes (loadRetriever true (fun _ => (none : Option Unit))).1 = false :=
  (c9_retry_waits_one_two (fun _ => none)).2.1 rfl rfl rfl

/-- **C6 amended** When the guarded retrieve-and-generate call fails, the
response is a structured error response (no raw exception reaches the
caller) with `error = true` and `recoverable` set exactly when the
exception type name is one of `RateLimitError`, `APIConnectionError`,
`Timeout`; the busy message is used when recoverable and the technical
message otherwise.  The new openai client raises `APITimeoutError` for
upstream timeouts, a name not in the list, so upstream timeouts are
classified non-recoverable. -/
theorem c6_recoverable_exact_names (ragCall : Str → RagOutcome) (group : Option String)
    (tier1 : Except Unit Str) (tn : Option Int) (query : Str)
    (hist : List Turn) (errName : String)
    (hfail : ragCall (contextualizeQuery query hist) = .failed errName) :
    getResponse ragCall group tier1 tn query hist =
      createErrorResponse
        (if recoverableErrorNames.contains errName then busyMsg else techMsg)
        (recoverableErrorNames.contains errName) ∧
    respGet (getResponse ragCall group tier1 tn query hist) "error" =
      some (.b true) ∧
    respGet (getResponse ragCall group tier1 tn query hist) "recoverable" =
      some (.b (recoverableErrorNames.contains errName)) := by
  have h1 : getResponse ragCall group tier1 tn query hist =
      createErrorResponse
        (if recoverableErrorNames.contains errName then busyMsg else techMsg)
        (recoverableErrorNames.contains errName) := by
    unfold getResponse
    rw [hfail]
    rfl
  refine ⟨h1, ?_, ?_⟩ <;> rw [h1] <;> rfl

/-- **C6 counterexample** An ultimate failure with exception type
`APITimeoutError` (the upstream-timeout error of the openai client) yields
`recoverable = false` with the technical-error message, contradicting the
claim that upstream timeouts are surfaced with `recoverable = true`. -/
theorem c6_upstream_timeout_counterexample :
    respGet (getResponse (fun _ => .failed "APITimeoutError") none
      (.error ()) none [] []) "recoverable" = some (.b false) ∧
    respGet (getResponse (fun _ => .failed "APITimeoutError") none
      (.error ()) none [] []) "error" = some (.b true) ∧
    respGet (getResponse (fun _ => .failed "APITimeoutError") none
      (.error ()) none [] []) "answer" = some (.s techMsg) := by
  refine ⟨rfl, rfl, rfl⟩

/-- Witness for the amended C6 at a concrete input. -/
theorem c6_recoverable_exact_names_witness :
    getResponse (fun _ => RagOutcome.failed "RateLimitError") none
      (.error ()) none [] [] = createErrorResponse busyMsg true := by
  have h := (c6_recoverable_exact_names (fun _ => RagOutcome.failed "RateLimitError") none
    (.error ()) none [] [] "RateLimitError" rfl).1
  rw [h]
  rfl

theorem lastFour_ne_nil {hist : List Turn} (h : hist ≠ []) :
    lastFour hist ≠ [] := by
  unfold lastFour
  intro hcon
  have hlen := congrArg List.length hcon
  rw [List.length_drop] at hlen
  simp only [List.length_nil] at hlen
  have hpos : 0 < hist.length := List.length_pos.mpr h
  omega

/-- **C7** History contextualization: an empty history, or a history whose
last four turns are all refusal turns, leaves the query unchanged; refusal
turns are filtered from the last four turns before inclusion; a non-empty
history with no refusal turns yields the query embedded in the
context template, prefixed by the summary of the last four turns. -/
theorem c7_history_contextualization (query : Str) (hist : List Turn) :
    (hist = [] → contextualizeQuery query hist = query) ∧
    (usefulHistory hist = [] → contextualizeQuery query hist = query) ∧
    (hist ≠ [] → usefulHistory hist ≠ [] →
      contextualizeQuery query hist =
        ctxHeader ++ historyText (usefulHistory hist) ++ ctxMid ++ query ++
          ctxInstr) ∧
    usefulHistory hist = (lastFour hist).filter (fun t => !isRefusalTurn t) ∧
    (hist ≠ [] → (∀ t ∈ hist, isRefusalTurn t = false) →
      contextualizeQuery query hist =
        ctxHeader ++ historyText (lastFour hist) ++ ctxMid ++ query ++
          ctxInstr) := by
  refine ⟨?_, ?_, ?_, rfl, ?_⟩
  · intro h
    unfold contextualizeQuery
    rw [if_pos h]
  · intro h
    unfold contextualizeQuery
    by_cases hh : hist = []
    · rw [if_pos hh]
    · rw [if_neg hh, if_pos h]
  · intro h1 h2
    unfold contextualizeQuery
    rw [if_neg h1, if_neg h2]
  · intro h1 h2
    have hkeep : usefulHistory hist = lastFour hist := by
      unfold usefulHistory
      apply List.filter_eq_self.mpr
      intro t ht
      have : t ∈ hist := List.mem_of_mem_drop ht
      simp [h2 t this]
    have h3 : usefulHistory hist ≠ [] := by
      rw [hkeep]
      exact lastFour_ne_nil h1
    unfold contextualizeQuery
    rw [if_neg h1, if_neg h3, hkeep]

/-- Witness for C7 at a concrete input. -/
theorem c7_history_contextualization_witness :
    contextualizeQuery "Neu?".toList
      [⟨"F1".toList, "A1".toList⟩] =
      ctxHeader ++ historyText [⟨"F1".toList, "A1".toList⟩] ++ ctxMid ++
        "Neu?".toList ++ ctxInstr := by
  have h := (c7_history_contextualization "Neu?".toList [⟨"F1".toList, "A1".toList⟩]).2.2.2.2
    (by decide) (by decide)
  rw [h]
  rfl

/-- **C8 amended** Every chunk carries its parent document metadata
unchanged: `legal_reference_full` is present on a chunk exactly when a
subsection marker was detected at the start of the parent document text
(not the chunk text), and then equals the legal reference followed by
a space and the `Abs. n` detail. -/
theorem c8_metadata_from_parent_document (ref text : Str) (pieces : List Str) (c : Chunk)
    (hc : c ∈ chunkDocument (enrichMetadata ref text) pieces) :
    c.meta = enrichMetadata ref text ∧
    c.meta.legalReference = ref ∧
    c.meta.legalReferenceFull =
      (extractParagraphDetails text).map (fun ad => ref ++ ' ' :: ad) ∧
    (c.meta.legalReferenceFull.isSome ↔ (extractParagraphDetails text).isSome) := by
  unfold chunkDocument at hc
  obtain ⟨t, ht, rfl⟩ := List.mem_map.mp hc
  refine ⟨rfl, ?_, ?_, ?_⟩
  · unfold enrichMetadata
    cases hx : extractParagraphDetails text <;> simp only []
  · unfold enrichMetadata
    cases hx : extractParagraphDetails text <;> simp [hx]
  · unfold enrichMetadata
    cases hx : extractParagraphDetails text <;> simp [hx]

/-- **C8 counterexample** A well-formed split of a document that starts
without a subsection marker produces a chunk whose own leading characters
carry the marker `(2)`, yet its `legal_reference_full` metadata is absent:
presence of the field does not track the chunk leading characters. -/
theorem c8_chunk_leading_marker_counterexample :
    isSplitOf ["Einleitung ohne Marker.".toList, "(2) Der zweite Absatz.".toList]
      "Einleitung ohne Marker.\n(2) Der zweite Absatz.".toList = true ∧
    (chunkDocument (enrichMetadata "EStG §20".toList
        "Einleitung ohne Marker.\n(2) Der zweite Absatz.".toList)
      ["Einleitung ohne Marker.".toList, "(2) Der zweite Absatz.".toList])[1]? =
      some ⟨"(2) Der zweite Absatz.".toList,
        enrichMetadata "EStG §20".toList
          "Einleitung ohne Marker.\n(2) Der zweite Absatz.".toList⟩ ∧
    extractParagraphDetails "(2) Der zweite Absatz.".toList = some "Abs. 2".toList ∧
    (enrichMetadata "EStG §20".toList
      "Einleitung ohne Marker.\n(2) Der zweite Absatz.".toList).legalReferenceFull
      = none := by
  refine ⟨by decide, by decide, by decide, by decide⟩

/-- Witness for the amended C8 at a concrete input. -/
theorem c8_metadata_from_parent_document_witness :
    (⟨"(2) Die Leistung.".toList,
      enrichMetadata "EStG §35a".toList "(2) Die Leistung.".toList⟩ :
        Chunk).meta.legalReferenceFull = some "EStG §35a Abs. 2".toList := by
  have h := (c8_metadata_from_parent_document "EStG §35a".toList
    "(2) Die Leistung.".toList ["(2) Die Leistung.".toList]
    ⟨"(2) Die Leistung.".toList,
      enrichMetadata "EStG §35a".toList "(2) Die Leistung.".toList⟩
    (by decide)).2.2.1
  rw [h]
  decide

/-- **C10** No-answer response shape: when the generated answer contains
the refusal sentence or no documents were retrieved, `get_response` returns
the fixed no-answer dictionary, whose `answer` is the refusal sentence,
`context` is empty, `quote` and `legal_reference` are null, `no_answer` is
true, and which omits the `error`, `recoverable` and `legal_reference_full`
keys that error responses and success responses carry. -/
theorem c10_no_answer_response_shape (ragCall : Str → RagOutcome) (group : Option String)
    (tier1 : Except Unit Str) (tn : Option Int) (query : Str)
    (hist : List Turn) :
    (∀ answer docs, ragCall (contextualizeQuery query hist) = .ok answer docs →
      (containsSub refusalProbe answer = true ∨ docs = []) →
      getResponse ragCall group tier1 tn query hist = noAnswerResponse) ∧
    (respGet noAnswerResponse "answer" = some (.s refusalAnswer) ∧
      respGet noAnswerResponse "context" = some (.docList []) ∧
      respGet noAnswerResponse "quote" = some .null ∧
      respGet noAnswerResponse "legal_reference" = some .null ∧
      respGet noAnswerResponse "no_answer" = some (.b true)) ∧
    (respGet noAnswerResponse "error" = none ∧
      respGet noAnswerResponse "recoverable" = none ∧
      respGet noAnswerResponse "legal_reference_full" = none) ∧
    (∀ msg rec, respGet (createErrorResponse msg rec) "error" = some (.b true) ∧
      respGet (createErrorResponse msg rec) "recoverable" = some (.b rec)) ∧
    (∀ ans top quote lr lrf,
      respGet (successResponse ans top quote lr lrf) "error" = some (.b false) ∧
      respGet (successResponse ans top quote lr lrf) "legal_reference_full" =
        some (.s lrf)) := by
  refine ⟨?_, ⟨rfl, rfl, rfl, rfl, rfl⟩, ⟨rfl, rfl, rfl⟩,
    fun msg rec => ⟨rfl, rfl⟩, fun ans top quote lr lrf => ⟨rfl, rfl⟩⟩
  intro answer docs hok hcond
  unfold getResponse
  rw [hok]
  simp only [processRagOutcome]
  rcases hcond with href | hdocs
  · rw [if_pos href]
  · subst hdocs
    by_cases href : containsSub refusalProbe answer = true
    · rw [if_pos href]
    · rw [if_neg href]

/-- Witness for C10 at a concrete input. -/
theorem c10_no_answer_response_shape_witness :
    getResponse (fun _ => RagOutcome.ok
      "Bitte stellen Sie erneut die Frage.".toList
      [⟨"t".toList, none, none⟩]) none (.error ()) none [] [] =
      noAnswerResponse ∧
    respGet noAnswerResponse "error" = none := by
  constructor
  · exact (c10_no_answer_response_shape (fun _ => RagOutcome.ok
      "Bitte stellen Sie erneut die Frage.".toList
      [⟨"t".toList, none, none⟩]) none (.error ()) none [] []).1
      "Bitte stellen Sie erneut die Frage.".toList
      [⟨"t".toList, none, none⟩] rfl (Or.inl (by decide))
  · rfl
